import Mathlib

/-!
Verification development for the Website-Scrapper repository
(`task/scraper.py`, class `WebsiteScraper`).

The scraper's pure logic is shallowly embedded here: the DOM is an
inductive tree, BeautifulSoup queries become tree traversals, Python string
slicing becomes `strTake`, and the side-effecting render session
(`_js_scrape`, `_handle_interactions`, `_handle_scroll_and_pagination`) is
embedded as explicit state passing over a `ScrapeState`, with the external
browser behaviour supplied by an oracle structure.  Whatever the network,
the HTML parser or the browser may do is a parameter; everything the Python
code itself computes is translated from `scraper.py`.
-/

set_option maxRecDepth 4096

namespace Scraper

/-! ## String helpers (Python string primitives) -/

/-- Python slicing `s[:n]`: the first `n` characters of `s`. -/
def strTake (s : String) (n : Nat) : String := ⟨s.data.take n⟩

/-- Python `s.lower()`, characterwise. -/
def strLower (s : String) : String := ⟨s.data.map Char.toLower⟩

/-- Python `s.strip()`: drop leading and trailing whitespace. -/
def strTrim (s : String) : String :=
  ⟨((s.data.dropWhile Char.isWhitespace).reverse.dropWhile Char.isWhitespace).reverse⟩

/-- Python `sep.join(parts)`. -/
def joinSep (sep : String) : List String → String
  | [] => ""
  | [x] => x
  | x :: xs => x ++ sep ++ joinSep sep xs

/-- Tokeniser behind `splitWS`: accumulates the current word reversed. -/
def splitWSChars : List Char → List Char → List String
  | [], acc => if acc.isEmpty then [] else [⟨acc.reverse⟩]
  | c :: cs, acc =>
      if c.isWhitespace then
        if acc.isEmpty then splitWSChars cs [] else ⟨acc.reverse⟩ :: splitWSChars cs []
      else splitWSChars cs (c :: acc)

/-- Python `s.split()`: split on whitespace runs, dropping empty pieces. -/
def splitWS (s : String) : List String := splitWSChars s.data []

/-- Substring test on character lists: does the list start with `pat`? -/
def charsStartWith : List Char → List Char → Bool
  | [], _ => true
  | _ :: _, [] => false
  | a :: as, b :: bs => a == b && charsStartWith as bs

/-- Substring test on character lists: does `pat` occur anywhere? -/
def charsHasSub (pat : List Char) : List Char → Bool
  | [] => pat.isEmpty
  | c :: cs => charsStartWith pat (c :: cs) || charsHasSub pat cs

/-- Python `pat in s` for strings: substring containment. -/
def hasSub (s pat : String) : Bool := charsHasSub pat.data s.data

/-- Fuel-driven decimal digit rendering, most significant digit first.
With fuel at least `n` this is the plain base-10 expansion; see
`natReprChars_eq`. -/
def natReprCharsCore : Nat → Nat → List Char
  | 0, n => [Nat.digitChar (n % 10)]
  | fuel + 1, n =>
      if n < 10 then [Nat.digitChar n]
      else natReprCharsCore fuel (n / 10) ++ [Nat.digitChar (n % 10)]

/-- Decimal digit list of `n`, most significant first.  Models the decimal
rendering used by the Python f-string `f"{section_type}-{section_id}"`. -/
def natReprChars (n : Nat) : List Char := natReprCharsCore n n

/-- Decimal rendering of a natural number (Python `str(n)` / f-string). -/
def natRepr (n : Nat) : String := ⟨natReprChars n⟩

/-! ## DOM model

`BeautifulSoup` parse trees are modelled as element/text trees.  A parsed
document is a `Node` whose root is the synthetic `"[document]"` element
(the soup object); selectors never match that tag.  Attributes carry their
raw string value. -/

inductive Node where
  | elem (tag : String) (attrs : List (String × String)) (children : List Node)
  | text (s : String)

/-- Tag of a node (`""` for a text node). -/
def Node.tag : Node → String
  | .elem t _ _ => t
  | .text _ => ""

/-- Attribute rendering used by `serialize`. -/
def attrsString (attrs : List (String × String)) : String :=
  match attrs with
  | [] => ""
  | (k, v) :: rest => " " ++ k ++ "=\"" ++ v ++ "\"" ++ attrsString rest

mutual
/-- Serialisation back to markup, modelling Python `str(element)`.
(BeautifulSoup details such as self-closing void tags are not reproduced;
the structure — open tag, attributes, children, close tag — is.) -/
def serialize : Node → String
  | Node.text s => s
  | Node.elem t attrs cs =>
      "<" ++ t ++ attrsString attrs ++ ">" ++ serializeList cs ++ "</" ++ t ++ ">"

def serializeList : List Node → String
  | [] => ""
  | n :: ns => serialize n ++ serializeList ns
end

mutual
/-- Models `element.get_text(strip=True)`: concatenation of the stripped text
descendants. -/
def getTextStrip : Node → String
  | Node.text s => strTrim s
  | Node.elem _ _ cs => getTextStripList cs

def getTextStripList : List Node → String
  | [] => ""
  | n :: ns => getTextStrip n ++ getTextStripList ns
end

mutual
/-- The node itself (when an element) followed by all element descendants,
in document (pre)order. -/
def selfAndDesc : Node → List Node
  | Node.text _ => []
  | Node.elem t a cs => Node.elem t a cs :: selfAndDescList cs

def selfAndDescList : List Node → List Node
  | [] => []
  | n :: ns => selfAndDesc n ++ selfAndDescList ns
end

/-- Element descendants of a node, excluding the node itself: the search
space of `element.select(...)`. -/
def descOf : Node → List Node
  | Node.text _ => []
  | Node.elem _ _ cs => selfAndDescList cs

/-- Models `element.select("t1, t2, ...")` for plain tag selectors: descendant
elements whose tag is in the list, in document order. -/
def selectDesc (e : Node) (tags : List String) : List Node :=
  (descOf e).filter (fun n => tags.contains n.tag)

/-- Models `parser.select(...)` on the soup itself: the whole tree is searched. -/
def selectDoc (doc : Node) (tags : List String) : List Node :=
  (selfAndDesc doc).filter (fun n => tags.contains n.tag)

/-- First match of a whole-document tag selector (`parser.select_one`). -/
def selectOneDoc (doc : Node) (tag : String) : Option Node :=
  (selfAndDesc doc).find? (fun n => n.tag == tag)

/-- Is the node an `h1`/`h2`/`h3` element? -/
def isH13 : Node → Bool
  | Node.elem t _ _ => t == "h1" || t == "h2" || t == "h3"
  | Node.text _ => false

mutual
/-- For each `h1`/`h2`/`h3` descendant, in document order of the headings,
the heading's immediate parent element (`heading.parent`).  The root of
the traversal acts as the parent of its top-level children, matching the
soup object being the parent of top-level tags. -/
def headingParents : Node → List Node
  | Node.text _ => []
  | Node.elem t a cs => headingParentsList (Node.elem t a cs) cs

def headingParentsList : Node → List Node → List Node
  | _, [] => []
  | p, c :: cs =>
      (if isH13 c then [p] else []) ++ headingParents c ++ headingParentsList p cs
end

/-- Models `element.get(name)`: first attribute with the given name. -/
def getAttr : Node → String → Option String
  | Node.text _, _ => none
  | Node.elem _ attrs _, a => (attrs.find? (fun p => p.1 == a)).map (fun p => p.2)

/-- The class string used by `_extract_section_from_element`:
`" ".join(element.get("class", []))`, where BeautifulSoup splits the raw
class attribute on whitespace into tokens. -/
def classString (e : Node) : String :=
  joinSep " " (splitWS ((getAttr e "class").getD ""))

/-- Models `urllib.parse.urljoin` abstractly: absolute references are kept,
others are resolved against the base.  No settled claim depends on the
resolver's internals. -/
def urljoin (base href : String) : String :=
  if hasSub href "://" then href else base ++ href

/-! ## Section data model -/

structure Link where
  text : String
  href : String

structure Image where
  src : String
  alt : String

structure Content where
  headings : List String
  text : String
  links : List Link
  images : List Image
  lists : List (List String)
  tables : List (List (List String))

structure Section where
  id : String
  type : String
  label : String
  sourceUrl : String
  content : Content
  rawHtml : String
  truncated : Bool

/-! ## Content extraction (`_extract_section_from_element`) -/

/-- The heading texts: `h1`–`h6` descendants with non-empty stripped text. -/
def collectHeadings (e : Node) : List String :=
  (selectDesc e ["h1", "h2", "h3", "h4", "h5", "h6"]).filterMap (fun h =>
    let t := getTextStrip h
    if t ≠ "" then some t else none)

/-- Paragraph fragments: `<p>` texts longer than 10 characters. -/
def collectPTexts (e : Node) : List String :=
  (selectDesc e ["p"]).filterMap (fun p =>
    let t := getTextStrip p
    if t ≠ "" && t.length > 10 then some t else none)

/-- The `div`/`span` augmentation loop: texts longer than 20 characters not
already present are appended to the growing fragment list. -/
def addDivSpans : List Node → List String → List String
  | [], acc => acc
  | d :: ds, acc =>
      let t := getTextStrip d
      if t ≠ "" && t.length > 20 && !(acc.contains t) then addDivSpans ds (acc ++ [t])
      else addDivSpans ds acc

/-- Link collection: `<a>` descendants with a truthy `href` and non-empty
text; the text is cut to 100 characters, the href resolved absolutely. -/
def buildLinks (sourceUrl : String) : List Node → List Link
  | [] => []
  | a :: rest =>
      let tail := buildLinks sourceUrl rest
      match getAttr a "href" with
      | some href =>
          if href ≠ "" then
            let t := getTextStrip a
            if t ≠ "" then { text := strTake t 100, href := urljoin sourceUrl href } :: tail
            else tail
          else tail
      | none => tail

/-- Image collection: `src` preferred over `data-src` (Python `or`). -/
def buildImages (sourceUrl : String) : List Node → List Image
  | [] => []
  | img :: rest =>
      let tail := buildImages sourceUrl rest
      let src0 := (getAttr img "src").getD ""
      let src := if src0 ≠ "" then src0 else (getAttr img "data-src").getD ""
      if src ≠ "" then
        { src := urljoin sourceUrl src, alt := (getAttr img "alt").getD "" } :: tail
      else tail

/-- List collection: each `ul`/`ol` contributes its non-empty `li` texts;
empty item lists are dropped. -/
def buildLists : List Node → List (List String)
  | [] => []
  | u :: rest =>
      let items := (selectDesc u ["li"]).filterMap (fun li =>
        let t := getTextStrip li
        if t ≠ "" then some t else none)
      if items.isEmpty then buildLists rest else items :: buildLists rest

/-- Table collection: rows are the cell texts of each `tr`; empty rows and
empty tables are dropped. -/
def buildTables : List Node → List (List (List String))
  | [] => []
  | t :: rest =>
      let rows := (selectDesc t ["tr"]).filterMap (fun tr =>
        let row := (selectDesc tr ["td", "th"]).map getTextStrip
        if row.isEmpty then none else some row)
      if rows.isEmpty then buildTables rest else rows :: buildTables rest

/-- The tag-based default of the section type. -/
def tagType (tagName : String) : String :=
  if tagName == "header" then "nav"
  else if tagName == "nav" then "nav"
  else if tagName == "footer" then "footer"
  else if tagName == "section" || tagName == "article" || tagName == "main" then "section"
  else "unknown"

/-- Models `element.name.lower() if element.name else "unknown"`. -/
def tagNameOf (e : Node) : String :=
  match e with
  | Node.elem t _ _ => strLower t
  | Node.text _ => "unknown"

/-- Section type: tag default, then the `if`/`elif` chain over the class
string. -/
def sectionTypeOf (e : Node) : String :=
  let cls := strLower (classString e)
  if hasSub cls "hero" then "hero"
  else if hasSub cls "faq" then "faq"
  else if hasSub cls "pricing" then "pricing"
  else tagType (tagNameOf e)

/-- Models `_extract_section_from_element` on a non-null element. -/
def extractSection (element : Node) (sourceUrl : String) (sectionId : Nat) : Section :=
  let sectionType := sectionTypeOf element
  let headings := collectHeadings element
  let pTexts := collectPTexts element
  let textParts :=
    if pTexts.length < 2 then addDivSpans (selectDesc element ["div", "span"]) pTexts
    else pTexts
  let textContent := joinSep " " (textParts.take 10)
  let links := buildLinks sourceUrl (selectDesc element ["a"])
  let images := buildImages sourceUrl (selectDesc element ["img"])
  let lists := buildLists (selectDesc element ["ul", "ol"])
  let tables := buildTables (selectDesc element ["table"])
  let label0 :=
    match headings with
    | h :: _ => strTake h 50
    | [] =>
        if textContent ≠ "" then joinSep " " ((splitWS textContent).take 7)
        else "Section"
  let rawHtml0 := serialize element
  let rawHtml := if rawHtml0.length > 5000 then strTake rawHtml0 5000 ++ "..." else rawHtml0
  let truncated := rawHtml0.length > 5000
  { id := sectionType ++ "-" ++ natRepr sectionId,
    type := sectionType,
    label := strTake label0 100,
    sourceUrl := sourceUrl,
    content := {
      headings := headings.take 10,
      text := strTake textContent 5000,
      links := links.take 50,
      images := images.take 20,
      lists := lists.take 10,
      tables := tables.take 5 },
    rawHtml := rawHtml,
    truncated := decide truncated }

/-- Models `_extract_section_from_element` including the null-element guard. -/
def extractSectionOpt (element : Option Node) (sourceUrl : String) (sectionId : Nat) :
    Option Section :=
  match element with
  | none => none
  | some e => some (extractSection e sourceUrl sectionId)

/-! ## Segmentation (`_extract_sections`) -/

/-- The landmark selector `"header, nav, main, section, footer, article"`. -/
def landmarkTags : List String := ["header", "nav", "main", "section", "footer", "article"]

/-- Noise substrings checked against each landmark's serialized markup. -/
def noiseLandmark : List String := ["cookie", "banner", "modal", "popup"]

/-- Noise substrings checked against each heading parent's serialized markup. -/
def noiseHeading : List String := ["cookie", "banner", "modal"]

/-- Models `any(noise in str(element).lower() for noise in subs)`. -/
def isNoise (subs : List String) (e : Node) : Bool :=
  subs.any (fun p => hasSub (strLower (serialize e)) p)

/-- The landmark loop: skip noisy landmarks, emit the rest with a counter
that advances only on emission. -/
def emitLandmarks : List Node → Nat → String → List Section
  | [], _, _ => []
  | l :: ls, ctr, url =>
      if isNoise noiseLandmark l then emitLandmarks ls ctr url
      else extractSection l url ctr :: emitLandmarks ls (ctr + 1) url

/-- The heading-fallback loop over heading parents: skip noisy parents,
emit the rest with a counter that advances only on emission. -/
def emitHeadings : List Node → Nat → String → List Section
  | [], _, _ => []
  | p :: ps, ctr, url =>
      if isNoise noiseHeading p then emitHeadings ps ctr url
      else extractSection p url ctr :: emitHeadings ps (ctr + 1) url

/-- Emission without any noise filtering (used to state the exclusion
policy as a filter that commutes out of the loops). -/
def emitPlain : List Node → Nat → String → List Section
  | [], _, _ => []
  | r :: rs, ctr, url => extractSection r url ctr :: emitPlain rs (ctr + 1) url

/-- Models `_extract_sections`: landmark tier when the landmark selector returns
anything, heading tier otherwise, body fallback when the chosen tier
emitted nothing. -/
def extractSections (doc : Node) (sourceUrl : String) : List Section :=
  let landmarks := selectDoc doc landmarkTags
  let sections :=
    if landmarks.isEmpty then emitHeadings (headingParents doc) 0 sourceUrl
    else emitLandmarks landmarks 0 sourceUrl
  if sections.isEmpty then
    match selectOneDoc doc "body" with
    | some body => [extractSection body sourceUrl 0]
    | none => []
  else sections

/-! ## Meta extraction (`_extract_meta`) -/

structure Meta where
  title : String
  description : String
  language : String
  canonical : Option String

/-- First descendant element with the given tag and attribute value
(`select_one` with an `[attr="value"]` selector). -/
def selectOneAttr (doc : Node) (tag attr value : String) : Option Node :=
  (selfAndDesc doc).find? (fun n => n.tag == tag && getAttr n attr == some value)

/-- Models `_extract_meta`: best-effort updates of the meta fields, leaving a
field untouched when its sources are absent. -/
def extractMeta (doc : Node) (m : Meta) : Meta :=
  let m :=
    match selectOneDoc doc "title" with
    | some t => { m with title := getTextStrip t }
    | none =>
        match selectOneAttr doc "meta" "property" "og:title" with
        | some og => { m with title := (getAttr og "content").getD "" }
        | none => m
  let m :=
    match selectOneAttr doc "meta" "name" "description" with
    | some d => { m with description := (getAttr d "content").getD "" }
    | none =>
        match selectOneAttr doc "meta" "property" "og:description" with
        | some og => { m with description := (getAttr og "content").getD "" }
        | none => m
  let m :=
    match selectOneDoc doc "html" with
    | some h =>
        let lang := (getAttr h "lang").getD "en"
        { m with language := if lang ≠ "" then strTake lang 2 else "en" }
    | none => m
  match selectOneAttr doc "link" "rel" "canonical" with
  | some c => { m with canonical := getAttr c "href" }
  | none => m

/-! ## Session state and the render path

The mutable `self` fields of `WebsiteScraper` become a `ScrapeState`
threaded through every step.  External browser behaviour (element queries,
click outcomes, document heights, rendered markup) is an oracle; every
Python `except` corresponds to a failure constructor of the oracle. -/

structure Interactions where
  clicks : List String
  scrolls : Nat
  pages : List String

structure ErrorRecord where
  message : String
  phase : String

structure ScrapeState where
  url : String
  visited : List String
  interactions : Interactions
  errors : List ErrorRecord
  meta : Meta
  /-- Observation instrumentation: set when `_js_scrape` is entered.  Not a
  field of the Python object; it only records that the render path ran. -/
  jsCalled : Bool

def initState (url : String) : ScrapeState :=
  { url := url, visited := [],
    interactions := { clicks := [], scrolls := 0, pages := [] },
    errors := [],
    meta := { title := "", description := "", language := "en", canonical := none },
    jsCalled := false }

def addError (st : ScrapeState) (r : ErrorRecord) : ScrapeState :=
  { st with errors := st.errors ++ [r] }

def addClick (st : ScrapeState) (c : String) : ScrapeState :=
  { st with interactions := { st.interactions with clicks := st.interactions.clicks ++ [c] } }

def incScroll (st : ScrapeState) : ScrapeState :=
  { st with interactions := { st.interactions with scrolls := st.interactions.scrolls + 1 } }

def addPage (st : ScrapeState) (u : String) : ScrapeState :=
  { st with interactions := { st.interactions with pages := st.interactions.pages ++ [u] } }

/-- Models `self.visited_urls.add(u)` (set semantics). -/
def addVisited (st : ScrapeState) (u : String) : ScrapeState :=
  if st.visited.contains u then st else { st with visited := u :: st.visited }

/-- Outcome of one iteration of the scroll loop, as driven by the browser:
the scroll evaluation may raise before the counter is bumped, a later
operation of the iteration may raise after it, or the iteration completes
with the observed "document height unchanged" comparison. -/
inductive IterOutcome where
  | raiseBefore (msg : String)
  | raiseAfter (msg : String)
  | heights (equal : Bool)

/-- Browser-session oracle: everything `_js_scrape` learns from Playwright. -/
structure JsOracle where
  /-- `PLAYWRIGHT_AVAILABLE` -/
  available : Bool
  /-- `page.goto` failure (propagates out of `_js_scrape`). -/
  gotoFail : Option String
  /-- `query_selector_all` for tabs: raised, or whether any tab matched. -/
  tabsQuery : Except String Bool
  /-- Did clicking the first tab succeed? (failure is swallowed by `pass`) -/
  tabClickOk : Bool
  /-- For the i-th load-more selector: found and clicked successfully? -/
  loadMoreHit : Nat → Bool
  /-- Outcome of the i-th scroll-loop iteration. -/
  scrollIter : Nat → IterOutcome
  /-- For the i-th next-page selector: a located link's href together with
  whether the click-and-wait succeeded, or nothing found. -/
  pgHit : Nat → Option (String × Bool)
  /-- Failure of the j-th extra catch-up scroll, if any. -/
  extraFail : Nat → Option String
  /-- `page.content()` failure after the interaction steps. -/
  contentFail : Option String
  /-- The final rendered document as parsed by BeautifulSoup. -/
  renderedDoc : Node

/-- The click label recorded for a tab activation. -/
def tabClickLabel : String := "[role=\"tab\"] or .tab"

/-- The ordered load-more selector patterns. -/
def loadMoreSelectors : List String :=
  ["button:has-text(\"Load more\")", "button:has-text(\"Show more\")",
   "a:has-text(\"Load more\")", "[class*=\"load-more\"]", "[class*=\"show-more\"]"]

/-- First selector (by position) whose attempt succeeds. -/
def firstHit (hit : Nat → Bool) : List String → Nat → Option String
  | [], _ => none
  | s :: ss, i => if hit i then some s else firstHit hit ss (i + 1)

/-- Models `_handle_interactions`: one optional tab click, then the load-more
selector loop stopping at the first success; a raised tab query is caught
by the outer handler and recorded as an interaction error. -/
def handleInteractions (o : JsOracle) (st : ScrapeState) : ScrapeState :=
  match o.tabsQuery with
  | Except.error msg =>
      addError st { message := "Interaction handling failed: " ++ msg, phase := "interaction" }
  | Except.ok tabsPresent =>
      let st1 := if tabsPresent && o.tabClickOk then addClick st tabClickLabel else st
      match firstHit o.loadMoreHit loadMoreSelectors 0 with
      | some sel => addClick st1 sel
      | none => st1

/-- The next-page selector loop: the first selector that yields an href
resolving to an unvisited URL (with fewer than 3 URLs visited) and whose
click-and-wait succeeds produces the new URL; a failed click falls through
to the next selector without recording anything. -/
def pgScan (hit : Nat → Option (String × Bool)) (url : String) (visited : List String) :
    Nat → Nat → Option String
  | _, 0 => none
  | i, fuel + 1 =>
      match hit i with
      | none => pgScan hit url visited (i + 1) fuel
      | some (href, clickOk) =>
          let nextUrl := urljoin url href
          if !(visited.contains nextUrl) && visited.length < 3 then
            if clickOk then some nextUrl else pgScan hit url visited (i + 1) fuel
          else pgScan hit url visited (i + 1) fuel

/-- The pagination attempt of the first scroll iteration. -/
def tryPagination (o : JsOracle) (st : ScrapeState) : ScrapeState :=
  match pgScan o.pgHit st.url st.visited 0 4 with
  | some nextUrl => addPage (addVisited st nextUrl) nextUrl
  | none => st

/-- The three-iteration scroll loop; a raise aborts it, reporting the
message to the enclosing handler. -/
def runScrollIters (o : JsOracle) : Nat → Nat → ScrapeState → ScrapeState × Option String
  | _, 0, st => (st, none)
  | i, fuel + 1, st =>
      match o.scrollIter i with
      | IterOutcome.raiseBefore m => (st, some m)
      | IterOutcome.raiseAfter m => (incScroll st, some m)
      | IterOutcome.heights equal =>
          let st1 := incScroll st
          let st2 := if equal && i == 0 then tryPagination o st1 else st1
          runScrollIters o (i + 1) fuel st2

/-- The catch-up scrolls run when fewer than 3 pages and 3 scrolls were
recorded; the count is fixed on entry, and a raise aborts the block. -/
def extraScrolls (fail : Nat → Option String) : Nat → Nat → ScrapeState → ScrapeState × Option String
  | _, 0, st => (st, none)
  | j, k + 1, st =>
      match fail j with
      | some m => (st, some m)
      | none => extraScrolls fail (j + 1) k (incScroll st)

def scrollError (m : String) : ErrorRecord :=
  { message := "Scroll/pagination failed: " ++ m, phase := "scroll" }

/-- Models `_handle_scroll_and_pagination`: the scroll loop, then the catch-up
block, with one scroll error recorded when either raises. -/
def handleScroll (o : JsOracle) (st : ScrapeState) : ScrapeState :=
  match runScrollIters o 0 3 st with
  | (st1, some m) => addError st1 (scrollError m)
  | (st1, none) =>
      if st1.interactions.pages.length < 3 && st1.interactions.scrolls < 3 then
        match extraScrolls o.extraFail 0 (3 - st1.interactions.scrolls) st1 with
        | (st2, some m) => addError st2 (scrollError m)
        | (st2, none) => st2
      else st1

/-- The error recorded when Playwright is not installed. -/
def playwrightMissing : ErrorRecord :=
  { message := "Playwright not available. Install with: pip install playwright && playwright install chromium",
    phase := "render" }

/-- Models `_js_scrape`: unavailable Playwright yields `none` plus a render error;
a `goto` failure propagates; otherwise the seed is recorded, interactions
and scrolling run, and the rendered document is re-extracted. -/
def jsScrape (o : JsOracle) (st : ScrapeState) : Except String (Option (List Section)) × ScrapeState :=
  let st := { st with jsCalled := true }
  if o.available then
    match o.gotoFail with
    | some m => (Except.error m, st)
    | none =>
        let st := addPage (addVisited st st.url) st.url
        let st := handleInteractions o st
        let st := handleScroll o st
        match o.contentFail with
        | some m => (Except.error m, st)
        | none =>
            let doc := o.renderedDoc
            let st := { st with meta := extractMeta doc st.meta }
            (Except.ok (some (extractSections doc st.url)), st)
  else
    (Except.ok none, addError st playwrightMissing)

/-! ## Top-level orchestration (`scrape`) -/

/-- Result of `_static_fetch` together with the external parse of a
successful response body: `failure` is a raised request (recorded with
phase `fetch`), `success` carries the response text and the BeautifulSoup
tree the external parser builds from it. -/
inductive FetchResult where
  | failure (msg : String)
  | success (body : String) (doc : Node)

/-- The branch taken when there is no usable static markup: run the render
path, keeping its sections when it returns a result and recording a render
error when it raises. -/
def jsBranch (o : JsOracle) (st : ScrapeState) : List Section × ScrapeState :=
  match jsScrape o st with
  | (Except.ok (some secs), st2) => (secs, st2)
  | (Except.ok none, st2) => ([], st2)
  | (Except.error m, st2) =>
      ([], addError st2 { message := "JS scraping failed: " ++ m, phase := "render" })

/-- The content-volume score of line 61: aggregate extracted text length. -/
def contentScore (sections : List Section) : Nat :=
  (sections.map (fun s => s.content.text.length)).sum

/-- The branch taken when the static fetch produced markup (lines 54–74):
extract statically, score, and escalate to the render path when the score
is under 500 — keeping the static sections when the render path raises or
returns nothing. -/
def staticPath (doc : Node) (o : JsOracle) (url : String) : List Section × ScrapeState :=
  if contentScore (extractSections doc url) < 500 then
    match jsScrape o { initState url with meta := extractMeta doc (initState url).meta } with
    | (Except.ok (some jsSections), st2) =>
        if jsSections.isEmpty then (extractSections doc url, st2) else (jsSections, st2)
    | (Except.ok none, st2) => (extractSections doc url, st2)
    | (Except.error m, st2) =>
        (extractSections doc url,
         addError st2 { message := "JS scraping failed: " ++ m, phase := "render" })
  else (extractSections doc url,
        { initState url with meta := extractMeta doc (initState url).meta })

/-- The body of `scrape` before the sentinel substitution: the sections
that both paths produced, plus the final session state.  (An empty
response body is falsy in Python, so it takes the fetch-failed branch but
records no fetch error.) -/
def scrapeCore (fr : FetchResult) (o : JsOracle) (url : String) : List Section × ScrapeState :=
  match fr with
  | FetchResult.failure msg =>
      jsBranch o (addError (initState url) { message := "Static fetch failed: " ++ msg, phase := "fetch" })
  | FetchResult.success body doc =>
      if body ≠ "" then staticPath doc o url else jsBranch o (initState url)

/-- The sentinel section substituted when both paths produced nothing. -/
def sentinelSection (url : String) : Section :=
  { id := "empty-0", type := "unknown", label := "No content found", sourceUrl := url,
    content := { headings := [], text := "", links := [], images := [], lists := [], tables := [] },
    rawHtml := "", truncated := false }

structure Envelope where
  url : String
  scrapedAt : String
  meta : Meta
  sections : List Section
  interactions : Interactions
  errors : List ErrorRecord

/-- Models `scrape`: envelope assembly with the sentinel guarantee.  The second
component reports whether the render path was invoked (instrumentation;
see `ScrapeState.jsCalled`).  `scrapedAt` is the wall-clock timestamp taken
at entry, passed in as a parameter. -/
def scrape (fr : FetchResult) (o : JsOracle) (url scrapedAt : String) : Envelope × Bool :=
  let (sections, st) := scrapeCore fr o url
  ({ url := url, scrapedAt := scrapedAt, meta := st.meta,
     sections := if sections.isEmpty then [sentinelSection url] else sections,
     interactions := st.interactions, errors := st.errors },
   st.jsCalled)

/-- Dense-id check: the `k`-th section (counting from the start value) has
id `<type>-<ordinal>` with ordinal equal to its emission position. -/
def idsFrom : List Section → Nat → Bool
  | [], _ => true
  | s :: ss, k => (s.id == s.type ++ "-" ++ natRepr k) && idsFrom ss (k + 1)

/-- All ids are `<type>-<position>` with dense positions `0, 1, 2, …`. -/
def idsWellFormed (ss : List Section) : Bool := idsFrom ss 0

/-- The body fallback of `_extract_sections` (lines 207–212). -/
def bodyFallback (doc : Node) (url : String) : List Section :=
  match selectOneDoc doc "body" with
  | some body => [extractSection body url 0]
  | none => []

/-! ## Concrete test documents and oracles used by counterexamples and
witnesses -/

/-- A document whose only landmark is denylisted while a clean heading
exists: `<section class="cookie-banner">` next to `<div><h1>…`. -/
def c4doc : Node :=
  Node.elem "[document]" [] [
    Node.elem "html" [] [
      Node.elem "body" [] [
        Node.elem "section" [("class", "cookie-banner")] [Node.text "Accept"],
        Node.elem "div" [] [Node.elem "h1" [] [Node.text "Title"], Node.text "Real"]]]]

/-- A landmark whose markup contains the denylist word "overlay". -/
def c5doc : Node :=
  Node.elem "[document]" [] [Node.elem "main" [("class", "overlay")] [Node.text "hello"]]

/-- A document with no landmarks whose only heading parent contains the
word "popup". -/
def c5doc2 : Node :=
  Node.elem "[document]" [] [
    Node.elem "div" [("class", "popup")] [Node.elem "h1" [] [Node.text "Hi there"]]]

/-- An element whose class contains all three override substrings. -/
def c3elem : Node := Node.elem "div" [("class", "hero faq pricing")] []

/-- A browser oracle whose navigation fails; all other answers are inert. -/
def oracleFail : JsOracle :=
  { available := true, gotoFail := some "net down", tabsQuery := Except.ok false,
    tabClickOk := false, loadMoreHit := fun _ => false,
    scrollIter := fun _ => IterOutcome.heights false, pgHit := fun _ => none,
    extraFail := fun _ => none, contentFail := none, renderedDoc := Node.text "" }

/-- A browser oracle that exercises every interaction: tabs, a load-more
hit on the second selector, stagnant heights, and a pagination hit. -/
def oracleBusy : JsOracle :=
  { available := true, gotoFail := none, tabsQuery := Except.ok true,
    tabClickOk := true, loadMoreHit := fun i => i == 1,
    scrollIter := fun _ => IterOutcome.heights true,
    pgHit := fun i => if i == 2 then some ("/p2", true) else none,
    extraFail := fun _ => none, contentFail := none, renderedDoc := c4doc }

/-! ## Decimal rendering lemmas -/

theorem natReprCharsCore_fuel {a b n : Nat} (h1 : n ≤ a) (h2 : n ≤ b) :
    natReprCharsCore a n = natReprCharsCore b n := by
  induction a generalizing b n with
  | zero =>
      have hn : n = 0 := Nat.le_zero.mp h1
      subst hn
      cases b with
      | zero => rfl
      | succ k => simp [natReprCharsCore]
  | succ f ih =>
      cases b with
      | zero =>
          have hn : n = 0 := Nat.le_zero.mp h2
          subst hn
          simp [natReprCharsCore]
      | succ k =>
          by_cases hlt : n < 10
          · simp [natReprCharsCore, hlt]
          · have hdiv : n / 10 < n := Nat.div_lt_self (by omega) (by norm_num)
            simp only [natReprCharsCore, if_neg hlt]
            rw [ih (b := k) (by omega) (by omega)]

/-- The recursive unfolding of `natReprChars`. -/
theorem natReprChars_eq (n : Nat) :
    natReprChars n = if n < 10 then [Nat.digitChar n]
                     else natReprChars (n / 10) ++ [Nat.digitChar (n % 10)] := by
  cases n with
  | zero => simp [natReprChars, natReprCharsCore]
  | succ m =>
      show natReprCharsCore (m + 1) (m + 1) = _
      by_cases hlt : m + 1 < 10
      · simp [natReprCharsCore, hlt]
      · have hdiv : (m + 1) / 10 < m + 1 := Nat.div_lt_self (by omega) (by norm_num)
        simp only [natReprCharsCore, if_neg hlt]
        rw [natReprCharsCore_fuel (b := (m + 1) / 10) (by omega) (le_refl _)]
        rfl

theorem natReprChars_ne_nil (n : Nat) : natReprChars n ≠ [] := by
  rw [natReprChars_eq]
  by_cases hlt : n < 10 <;> simp [hlt]

theorem digitChar_inj_lt {a b : Nat} (ha : a < 10) (hb : b < 10)
    (h : Nat.digitChar a = Nat.digitChar b) : a = b := by
  interval_cases a <;> interval_cases b <;> first | rfl | exact absurd h (by decide)

theorem digitChar_ne_dash {a : Nat} (ha : a < 10) : Nat.digitChar a ≠ '-' := by
  interval_cases a <;> decide

theorem natReprChars_no_dash (n : Nat) : ∀ c ∈ natReprChars n, c ≠ '-' := by
  induction n using Nat.strong_induction_on with
  | _ n ih =>
      rw [natReprChars_eq]
      by_cases hlt : n < 10
      · simp only [if_pos hlt, List.mem_singleton]
        rintro c rfl
        exact digitChar_ne_dash hlt
      · simp only [if_neg hlt, List.mem_append, List.mem_singleton]
        rintro c (hc | rfl)
        · exact ih (n / 10) (Nat.div_lt_self (by omega) (by norm_num)) c hc
        · exact digitChar_ne_dash (Nat.mod_lt _ (by norm_num))

theorem natReprChars_inj : ∀ {m n : Nat}, natReprChars m = natReprChars n → m = n := by
  intro m
  induction m using Nat.strong_induction_on with
  | _ m ih =>
      intro n h
      rw [natReprChars_eq m, natReprChars_eq n] at h
      by_cases hm : m < 10 <;> by_cases hn : n < 10
      · simp only [if_pos hm, if_pos hn, List.cons.injEq, and_true] at h
        exact digitChar_inj_lt hm hn h
      · rw [if_pos hm, if_neg hn] at h
        have hlen : 1 = (natReprChars (n / 10)).length + 1 := by
          simpa using congrArg List.length h
        exact absurd (List.length_eq_zero.mp (by omega)) (natReprChars_ne_nil (n / 10))
      · rw [if_neg hm, if_pos hn] at h
        have hlen : (natReprChars (m / 10)).length + 1 = 1 := by
          simpa using congrArg List.length h
        exact absurd (List.length_eq_zero.mp (by omega)) (natReprChars_ne_nil (m / 10))
      · rw [if_neg hm, if_neg hn] at h
        have h2 := congrArg List.reverse h
        simp only [List.reverse_append, List.reverse_cons, List.reverse_nil,
          List.nil_append, List.singleton_append] at h2
        injection h2 with hc ha
        have hmod : m % 10 = n % 10 :=
          digitChar_inj_lt (Nat.mod_lt _ (by norm_num)) (Nat.mod_lt _ (by norm_num)) hc
        have hdiv : m / 10 = n / 10 :=
          ih (m / 10) (Nat.div_lt_self (by omega) (by norm_num))
            (List.reverse_injective ha)
        omega

/-- Injectivity of `natRepr`: distinct ordinals render distinctly. -/
theorem natRepr_inj {m n : Nat} (h : natRepr m = natRepr n) : m = n := by
  apply natReprChars_inj
  unfold natRepr at h
  injection h

/-! ## Recovering the ordinal from a section id -/

/-- The maximal dash-free suffix of a string, reversed. -/
def tailDigits (s : String) : List Char := s.data.reverse.takeWhile (fun c => c != '-')

theorem strData_append (a b : String) : (a ++ b).data = a.data ++ b.data := rfl

theorem takeWhile_append_stop {p : Char → Bool} {a b : List Char} {x : Char}
    (ha : ∀ c ∈ a, p c = true) (hx : p x = false) :
    (a ++ x :: b).takeWhile p = a := by
  induction a with
  | nil => simp [List.takeWhile_cons, hx]
  | cons c cs ih =>
      have hc : p c = true := ha c (by simp)
      simp only [List.cons_append, List.takeWhile_cons, hc]
      simp only [if_true]
      rw [ih (fun d hd => ha d (by simp [hd]))]

/-- The ordinal part of `t ++ "-" ++ natRepr n` is recoverable whatever the
prefix `t` is. -/
theorem tailDigits_encode (t : String) (n : Nat) :
    tailDigits (t ++ "-" ++ natRepr n) = (natReprChars n).reverse := by
  unfold tailDigits
  have hdata : (t ++ "-" ++ natRepr n).data = t.data ++ '-' :: natReprChars n := by
    rw [strData_append, strData_append, List.append_assoc]
    rfl
  rw [hdata]
  rw [List.reverse_append]
  simp only [List.reverse_cons]
  rw [List.append_assoc]
  simp only [List.singleton_append]
  exact takeWhile_append_stop
    (fun c hc => by
      have := natReprChars_no_dash n c (List.mem_reverse.mp hc)
      simpa using this)
    (by simp)

/-- Two id strings with the same dash-suffix encoding share the ordinal. -/
theorem id_encode_inj {a b : String} {m n : Nat}
    (h : a ++ "-" ++ natRepr m = b ++ "-" ++ natRepr n) : m = n := by
  have := congrArg tailDigits h
  rw [tailDigits_encode, tailDigits_encode] at this
  exact natReprChars_inj (List.reverse_injective this)

/-! ## Dense-id lemmas for the emission loops -/

/-- Each produced section's id is its type joined to its ordinal. -/
theorem extractSection_id (e : Node) (url : String) (i : Nat) :
    (extractSection e url i).id = (extractSection e url i).type ++ "-" ++ natRepr i := rfl

theorem idsFrom_emitPlain (rs : List Node) (ctr : Nat) (url : String) :
    idsFrom (emitPlain rs ctr url) ctr = true := by
  induction rs generalizing ctr with
  | nil => rfl
  | cons r rs ih =>
      simp only [emitPlain, idsFrom, Bool.and_eq_true, beq_iff_eq]
      exact ⟨extractSection_id r url ctr, ih (ctr + 1)⟩

/-- The landmark loop is the unfiltered loop over the non-noisy landmarks. -/
theorem emitLandmarks_eq_plain (rs : List Node) (ctr : Nat) (url : String) :
    emitLandmarks rs ctr url =
      emitPlain (rs.filter (fun r => !(isNoise noiseLandmark r))) ctr url := by
  induction rs generalizing ctr with
  | nil => rfl
  | cons r rs ih =>
      cases hn : isNoise noiseLandmark r with
      | true => simp [emitLandmarks, List.filter_cons, hn, ih]
      | false => simp [emitLandmarks, List.filter_cons, hn, ih, emitPlain]

/-- The heading loop is the unfiltered loop over the non-noisy parents. -/
theorem emitHeadings_eq_plain (rs : List Node) (ctr : Nat) (url : String) :
    emitHeadings rs ctr url =
      emitPlain (rs.filter (fun r => !(isNoise noiseHeading r))) ctr url := by
  induction rs generalizing ctr with
  | nil => rfl
  | cons r rs ih =>
      cases hn : isNoise noiseHeading r with
      | true => simp [emitHeadings, List.filter_cons, hn, ih]
      | false => simp [emitHeadings, List.filter_cons, hn, ih, emitPlain]

/-- Sections produced by `_extract_sections` carry dense well-formed ids. -/
theorem extractSections_idsWellFormed (doc : Node) (url : String) :
    idsWellFormed (extractSections doc url) = true := by
  unfold idsWellFormed
  simp only [extractSections]
  have hbody : idsFrom
      (match selectOneDoc doc "body" with
       | some body => [extractSection body url 0]
       | none => []) 0 = true := by
    split
    · simp [idsFrom, extractSection_id]
    · rfl
  split
  · split
    · exact hbody
    · rw [emitHeadings_eq_plain]
      exact idsFrom_emitPlain _ 0 url
  · split
    · exact hbody
    · rw [emitLandmarks_eq_plain]
      exact idsFrom_emitPlain _ 0 url

/-- Every member of a dense-id list carries an ordinal at least the start. -/
theorem idsFrom_mem {ss : List Section} {c : Nat} (h : idsFrom ss c = true) :
    ∀ s ∈ ss, ∃ k, c ≤ k ∧ s.id = s.type ++ "-" ++ natRepr k := by
  induction ss generalizing c with
  | nil => intro s hs; cases hs
  | cons s0 ss ih =>
      simp only [idsFrom, Bool.and_eq_true, beq_iff_eq] at h
      intro s hs
      rcases List.mem_cons.mp hs with rfl | hs
      · exact ⟨c, le_refl c, h.1⟩
      · rcases ih h.2 s hs with ⟨k, hk, hid⟩
        exact ⟨k, by omega, hid⟩

/-- Dense ids are pairwise distinct. -/
theorem idsFrom_nodup {ss : List Section} {c : Nat} (h : idsFrom ss c = true) :
    (ss.map (fun s => s.id)).Nodup := by
  induction ss generalizing c with
  | nil => simp
  | cons s0 ss ih =>
      simp only [idsFrom, Bool.and_eq_true, beq_iff_eq] at h
      simp only [List.map_cons, List.nodup_cons]
      refine ⟨?_, ih h.2⟩
      intro hmem
      rcases List.mem_map.mp hmem with ⟨s, hs, hid⟩
      rcases idsFrom_mem h.2 s hs with ⟨k, hk, hkid⟩
      have heq : s0.type ++ "-" ++ natRepr c = s.type ++ "-" ++ natRepr k := by
        rw [← h.1, ← hid]
        exact hkid
      have : c = k := id_encode_inj heq
      omega

/-! ## State-transition lemmas for the render session -/

@[simp] theorem addError_interactions (st : ScrapeState) (r : ErrorRecord) :
    (addError st r).interactions = st.interactions := rfl

@[simp] theorem addError_errors (st : ScrapeState) (r : ErrorRecord) :
    (addError st r).errors = st.errors ++ [r] := rfl

@[simp] theorem addError_jsCalled (st : ScrapeState) (r : ErrorRecord) :
    (addError st r).jsCalled = st.jsCalled := rfl

@[simp] theorem addError_url (st : ScrapeState) (r : ErrorRecord) :
    (addError st r).url = st.url := rfl

@[simp] theorem addClick_clicks (st : ScrapeState) (c : String) :
    (addClick st c).interactions.clicks = st.interactions.clicks ++ [c] := rfl

@[simp] theorem addClick_scrolls (st : ScrapeState) (c : String) :
    (addClick st c).interactions.scrolls = st.interactions.scrolls := rfl

@[simp] theorem addClick_pages (st : ScrapeState) (c : String) :
    (addClick st c).interactions.pages = st.interactions.pages := rfl

@[simp] theorem addClick_errors (st : ScrapeState) (c : String) :
    (addClick st c).errors = st.errors := rfl

@[simp] theorem addClick_jsCalled (st : ScrapeState) (c : String) :
    (addClick st c).jsCalled = st.jsCalled := rfl

@[simp] theorem addClick_url (st : ScrapeState) (c : String) :
    (addClick st c).url = st.url := rfl

@[simp] theorem incScroll_scrolls (st : ScrapeState) :
    (incScroll st).interactions.scrolls = st.interactions.scrolls + 1 := rfl

@[simp] theorem incScroll_clicks (st : ScrapeState) :
    (incScroll st).interactions.clicks = st.interactions.clicks := rfl

@[simp] theorem incScroll_pages (st : ScrapeState) :
    (incScroll st).interactions.pages = st.interactions.pages := rfl

@[simp] theorem incScroll_errors (st : ScrapeState) :
    (incScroll st).errors = st.errors := rfl

@[simp] theorem incScroll_jsCalled (st : ScrapeState) :
    (incScroll st).jsCalled = st.jsCalled := rfl

@[simp] theorem incScroll_url (st : ScrapeState) :
    (incScroll st).url = st.url := rfl

@[simp] theorem addPage_pages (st : ScrapeState) (u : String) :
    (addPage st u).interactions.pages = st.interactions.pages ++ [u] := rfl

@[simp] theorem addPage_clicks (st : ScrapeState) (u : String) :
    (addPage st u).interactions.clicks = st.interactions.clicks := rfl

@[simp] theorem addPage_scrolls (st : ScrapeState) (u : String) :
    (addPage st u).interactions.scrolls = st.interactions.scrolls := rfl

@[simp] theorem addPage_errors (st : ScrapeState) (u : String) :
    (addPage st u).errors = st.errors := rfl

@[simp] theorem addPage_jsCalled (st : ScrapeState) (u : String) :
    (addPage st u).jsCalled = st.jsCalled := rfl

@[simp] theorem addPage_url (st : ScrapeState) (u : String) :
    (addPage st u).url = st.url := rfl

@[simp] theorem addVisited_interactions (st : ScrapeState) (u : String) :
    (addVisited st u).interactions = st.interactions := by
  unfold addVisited; split <;> rfl

@[simp] theorem addVisited_errors (st : ScrapeState) (u : String) :
    (addVisited st u).errors = st.errors := by
  unfold addVisited; split <;> rfl

@[simp] theorem addVisited_jsCalled (st : ScrapeState) (u : String) :
    (addVisited st u).jsCalled = st.jsCalled := by
  unfold addVisited; split <;> rfl

@[simp] theorem addVisited_url (st : ScrapeState) (u : String) :
    (addVisited st u).url = st.url := by
  unfold addVisited; split <;> rfl

theorem tryPagination_clicks (o : JsOracle) (st : ScrapeState) :
    (tryPagination o st).interactions.clicks = st.interactions.clicks := by
  unfold tryPagination; split <;> simp

theorem tryPagination_scrolls (o : JsOracle) (st : ScrapeState) :
    (tryPagination o st).interactions.scrolls = st.interactions.scrolls := by
  unfold tryPagination; split <;> simp

theorem tryPagination_errors (o : JsOracle) (st : ScrapeState) :
    (tryPagination o st).errors = st.errors := by
  unfold tryPagination; split <;> simp

theorem tryPagination_jsCalled (o : JsOracle) (st : ScrapeState) :
    (tryPagination o st).jsCalled = st.jsCalled := by
  unfold tryPagination; split <;> simp

theorem tryPagination_url (o : JsOracle) (st : ScrapeState) :
    (tryPagination o st).url = st.url := by
  unfold tryPagination; split <;> simp

theorem tryPagination_pages (o : JsOracle) (st : ScrapeState) :
    ∃ d, (tryPagination o st).interactions.pages = st.interactions.pages ++ d ∧
      d.length ≤ 1 := by
  unfold tryPagination
  cases hp : pgScan o.pgHit st.url st.visited 0 4 with
  | some nu => exact ⟨[nu], by simp, by simp⟩
  | none => exact ⟨[], by simp, by simp⟩

theorem runScrollIters_clicks (o : JsOracle) (i fuel : Nat) (st : ScrapeState) :
    (runScrollIters o i fuel st).1.interactions.clicks = st.interactions.clicks := by
  induction fuel generalizing i st with
  | zero => rfl
  | succ f ih =>
      simp only [runScrollIters]
      cases o.scrollIter i with
      | raiseBefore m => rfl
      | raiseAfter m => simp
      | heights equal =>
          rw [ih]
          split
          · rw [tryPagination_clicks]; simp
          · simp

theorem runScrollIters_errors (o : JsOracle) (i fuel : Nat) (st : ScrapeState) :
    (runScrollIters o i fuel st).1.errors = st.errors := by
  induction fuel generalizing i st with
  | zero => rfl
  | succ f ih =>
      simp only [runScrollIters]
      cases o.scrollIter i with
      | raiseBefore m => rfl
      | raiseAfter m => simp
      | heights equal =>
          rw [ih]
          split
          · rw [tryPagination_errors]; simp
          · simp

theorem runScrollIters_jsCalled (o : JsOracle) (i fuel : Nat) (st : ScrapeState) :
    (runScrollIters o i fuel st).1.jsCalled = st.jsCalled := by
  induction fuel generalizing i st with
  | zero => rfl
  | succ f ih =>
      simp only [runScrollIters]
      cases o.scrollIter i with
      | raiseBefore m => rfl
      | raiseAfter m => simp
      | heights equal =>
          rw [ih]
          split
          · rw [tryPagination_jsCalled]; simp
          · simp

theorem runScrollIters_url (o : JsOracle) (i fuel : Nat) (st : ScrapeState) :
    (runScrollIters o i fuel st).1.url = st.url := by
  induction fuel generalizing i st with
  | zero => rfl
  | succ f ih =>
      simp only [runScrollIters]
      cases o.scrollIter i with
      | raiseBefore m => rfl
      | raiseAfter m => simp
      | heights equal =>
          rw [ih]
          split
          · rw [tryPagination_url]; simp
          · simp

theorem runScrollIters_scrolls (o : JsOracle) (i fuel : Nat) (st : ScrapeState) :
    (runScrollIters o i fuel st).1.interactions.scrolls ≤ st.interactions.scrolls + fuel := by
  induction fuel generalizing i st with
  | zero => simp [runScrollIters]
  | succ f ih =>
      simp only [runScrollIters]
      cases o.scrollIter i with
      | raiseBefore m =>
          show st.interactions.scrolls ≤ st.interactions.scrolls + (f + 1)
          omega
      | raiseAfter m =>
          show st.interactions.scrolls + 1 ≤ st.interactions.scrolls + (f + 1)
          omega
      | heights equal =>
          refine le_trans (ih (i + 1) _) ?_
          show (if (equal && i == 0) = true then tryPagination o (incScroll st)
                else incScroll st).interactions.scrolls + f ≤
               st.interactions.scrolls + (f + 1)
          split
          · rw [tryPagination_scrolls]
            show st.interactions.scrolls + 1 + f ≤ st.interactions.scrolls + (f + 1)
            omega
          · show st.interactions.scrolls + 1 + f ≤ st.interactions.scrolls + (f + 1)
            omega

theorem runScrollIters_pages_pos (o : JsOracle) (i fuel : Nat) (st : ScrapeState)
    (hi : 1 ≤ i) :
    (runScrollIters o i fuel st).1.interactions.pages = st.interactions.pages := by
  induction fuel generalizing i st with
  | zero => rfl
  | succ f ih =>
      simp only [runScrollIters]
      cases o.scrollIter i with
      | raiseBefore m => rfl
      | raiseAfter m => simp
      | heights equal =>
          show (runScrollIters o (i + 1) f
              (if (equal && i == 0) = true then tryPagination o (incScroll st)
               else incScroll st)).1.interactions.pages = st.interactions.pages
          have hcond : ¬((equal && i == 0) = true) := by
            simp only [Bool.and_eq_true, beq_iff_eq, not_and]
            intro _ h0
            omega
          rw [if_neg hcond]
          rw [ih (i + 1) _ (by omega)]
          simp

theorem runScrollIters_pages (o : JsOracle) (i fuel : Nat) (st : ScrapeState) :
    ∃ d, (runScrollIters o i fuel st).1.interactions.pages = st.interactions.pages ++ d ∧
      d.length ≤ 1 := by
  cases fuel with
  | zero => exact ⟨[], by simp [runScrollIters], by simp⟩
  | succ f =>
      simp only [runScrollIters]
      cases o.scrollIter i with
      | raiseBefore m => exact ⟨[], by simp, by simp⟩
      | raiseAfter m => exact ⟨[], by simp, by simp⟩
      | heights equal =>
          show ∃ d, (runScrollIters o (i + 1) f
              (if (equal && i == 0) = true then tryPagination o (incScroll st)
               else incScroll st)).1.interactions.pages =
                st.interactions.pages ++ d ∧ d.length ≤ 1
          by_cases hc : (equal && i == 0) = true
          · rcases tryPagination_pages o (incScroll st) with ⟨d, hd, hdl⟩
            refine ⟨d, ?_, hdl⟩
            rw [if_pos hc]
            rw [runScrollIters_pages_pos o (i + 1) f _ (by omega), hd]
            simp
          · refine ⟨[], ?_, by simp⟩
            rw [if_neg hc]
            rw [runScrollIters_pages_pos o (i + 1) f _ (by omega)]
            simp

theorem extraScrolls_clicks (fail : Nat → Option String) (j k : Nat) (st : ScrapeState) :
    (extraScrolls fail j k st).1.interactions.clicks = st.interactions.clicks := by
  induction k generalizing j st with
  | zero => rfl
  | succ k ih =>
      simp only [extraScrolls]
      cases fail j with
      | some m => rfl
      | none => rw [ih]; simp

theorem extraScrolls_pages (fail : Nat → Option String) (j k : Nat) (st : ScrapeState) :
    (extraScrolls fail j k st).1.interactions.pages = st.interactions.pages := by
  induction k generalizing j st with
  | zero => rfl
  | succ k ih =>
      simp only [extraScrolls]
      cases fail j with
      | some m => rfl
      | none => rw [ih]; simp

theorem extraScrolls_errors (fail : Nat → Option String) (j k : Nat) (st : ScrapeState) :
    (extraScrolls fail j k st).1.errors = st.errors := by
  induction k generalizing j st with
  | zero => rfl
  | succ k ih =>
      simp only [extraScrolls]
      cases fail j with
      | some m => rfl
      | none => rw [ih]; simp

theorem extraScrolls_jsCalled (fail : Nat → Option String) (j k : Nat) (st : ScrapeState) :
    (extraScrolls fail j k st).1.jsCalled = st.jsCalled := by
  induction k generalizing j st with
  | zero => rfl
  | succ k ih =>
      simp only [extraScrolls]
      cases fail j with
      | some m => rfl
      | none => rw [ih]; simp

theorem extraScrolls_url (fail : Nat → Option String) (j k : Nat) (st : ScrapeState) :
    (extraScrolls fail j k st).1.url = st.url := by
  induction k generalizing j st with
  | zero => rfl
  | succ k ih =>
      simp only [extraScrolls]
      cases fail j with
      | some m => rfl
      | none => rw [ih]; simp

theorem extraScrolls_scrolls (fail : Nat → Option String) (j k : Nat) (st : ScrapeState) :
    (extraScrolls fail j k st).1.interactions.scrolls ≤ st.interactions.scrolls + k := by
  induction k generalizing j st with
  | zero => simp [extraScrolls]
  | succ k ih =>
      simp only [extraScrolls]
      cases fail j with
      | some m =>
          show st.interactions.scrolls ≤ st.interactions.scrolls + (k + 1)
          omega
      | none =>
          refine le_trans (ih (j + 1) _) ?_
          show st.interactions.scrolls + 1 + k ≤ st.interactions.scrolls + (k + 1)
          omega

theorem firstHit_mem {hit : Nat → Bool} :
    ∀ (l : List String) (i : Nat) (s : String), firstHit hit l i = some s → s ∈ l := by
  intro l
  induction l with
  | nil => intro i s h; cases h
  | cons x xs ih =>
      intro i s h
      simp only [firstHit] at h
      by_cases hx : hit i
      · rw [if_pos hx] at h
        injection h with h
        simp [h]
      · rw [if_neg hx] at h
        exact List.mem_cons_of_mem x (ih (i + 1) s h)

theorem handleInteractions_clicks (o : JsOracle) (st : ScrapeState) :
    ∃ t l, (handleInteractions o st).interactions.clicks = st.interactions.clicks ++ t ++ l ∧
      t.length ≤ 1 ∧ l.length ≤ 1 ∧
      (∀ c ∈ t, c = tabClickLabel) ∧ (∀ c ∈ l, c ∈ loadMoreSelectors) := by
  rcases hq : o.tabsQuery with m | tabsPresent
  · exact ⟨[], [], by simp [handleInteractions, hq], by simp, by simp, by simp, by simp⟩
  · rcases hfh : firstHit o.loadMoreHit loadMoreSelectors 0 with _ | sel
    · by_cases ht : (tabsPresent && o.tabClickOk) = true
      · exact ⟨[tabClickLabel], [], by simp [handleInteractions, hq, hfh, ht],
          by simp, by simp, by simp, by simp⟩
      · exact ⟨[], [], by simp [handleInteractions, hq, hfh, ht],
          by simp, by simp, by simp, by simp⟩
    · have hmem : ∀ c ∈ [sel], c ∈ loadMoreSelectors := by
        intro c hc
        rw [List.mem_singleton.mp hc]
        exact firstHit_mem loadMoreSelectors 0 sel hfh
      by_cases ht : (tabsPresent && o.tabClickOk) = true
      · exact ⟨[tabClickLabel], [sel], by simp [handleInteractions, hq, hfh, ht],
          by simp, by simp, by simp, hmem⟩
      · exact ⟨[], [sel], by simp [handleInteractions, hq, hfh, ht],
          by simp, by simp, by simp, hmem⟩

theorem handleInteractions_scrolls (o : JsOracle) (st : ScrapeState) :
    (handleInteractions o st).interactions.scrolls = st.interactions.scrolls := by
  rcases hq : o.tabsQuery with m | tabsPresent
  · simp [handleInteractions, hq]
  · rcases hfh : firstHit o.loadMoreHit loadMoreSelectors 0 with _ | sel <;>
      simp only [handleInteractions, hq, hfh] <;> split <;> simp

theorem handleInteractions_pages (o : JsOracle) (st : ScrapeState) :
    (handleInteractions o st).interactions.pages = st.interactions.pages := by
  rcases hq : o.tabsQuery with m | tabsPresent
  · simp [handleInteractions, hq]
  · rcases hfh : firstHit o.loadMoreHit loadMoreSelectors 0 with _ | sel <;>
      simp only [handleInteractions, hq, hfh] <;> split <;> simp

theorem handleInteractions_jsCalled (o : JsOracle) (st : ScrapeState) :
    (handleInteractions o st).jsCalled = st.jsCalled := by
  rcases hq : o.tabsQuery with m | tabsPresent
  · simp [handleInteractions, hq]
  · rcases hfh : firstHit o.loadMoreHit loadMoreSelectors 0 with _ | sel <;>
      simp only [handleInteractions, hq, hfh] <;> split <;> simp

theorem handleInteractions_url (o : JsOracle) (st : ScrapeState) :
    (handleInteractions o st).url = st.url := by
  rcases hq : o.tabsQuery with m | tabsPresent
  · simp [handleInteractions, hq]
  · rcases hfh : firstHit o.loadMoreHit loadMoreSelectors 0 with _ | sel <;>
      simp only [handleInteractions, hq, hfh] <;> split <;> simp

theorem handleInteractions_errors (o : JsOracle) (st : ScrapeState) :
    ∃ d, (handleInteractions o st).errors = st.errors ++ d ∧
      ∀ r ∈ d, r.phase = "interaction" := by
  rcases hq : o.tabsQuery with m | tabsPresent
  · refine ⟨[{ message := "Interaction handling failed: " ++ m, phase := "interaction" }],
      by simp [handleInteractions, hq, addError], ?_⟩
    intro r hr
    rw [List.mem_singleton.mp hr]
  · refine ⟨[], ?_, by simp⟩
    rcases hfh : firstHit o.loadMoreHit loadMoreSelectors 0 with _ | sel <;>
      simp only [handleInteractions, hq, hfh] <;> split <;> simp

theorem handleScroll_clicks (o : JsOracle) (st : ScrapeState) :
    (handleScroll o st).interactions.clicks = st.interactions.clicks := by
  unfold handleScroll
  rcases hr : runScrollIters o 0 3 st with ⟨st1, ab⟩
  have h1 : st1.interactions.clicks = st.interactions.clicks := by
    have := runScrollIters_clicks o 0 3 st
    rw [hr] at this
    exact this
  cases ab with
  | some m => simpa using h1
  | none =>
      simp only []
      split
      · rcases he : extraScrolls o.extraFail 0 (3 - st1.interactions.scrolls) st1 with ⟨st2, ab2⟩
        have h2 : st2.interactions.clicks = st1.interactions.clicks := by
          have := extraScrolls_clicks o.extraFail 0 (3 - st1.interactions.scrolls) st1
          rw [he] at this
          exact this
        cases ab2 <;> simp [h2, h1]
      · exact h1

theorem handleScroll_jsCalled (o : JsOracle) (st : ScrapeState) :
    (handleScroll o st).jsCalled = st.jsCalled := by
  unfold handleScroll
  rcases hr : runScrollIters o 0 3 st with ⟨st1, ab⟩
  have h1 : st1.jsCalled = st.jsCalled := by
    have := runScrollIters_jsCalled o 0 3 st
    rw [hr] at this
    exact this
  cases ab with
  | some m => simpa using h1
  | none =>
      simp only []
      split
      · rcases he : extraScrolls o.extraFail 0 (3 - st1.interactions.scrolls) st1 with ⟨st2, ab2⟩
        have h2 : st2.jsCalled = st1.jsCalled := by
          have := extraScrolls_jsCalled o.extraFail 0 (3 - st1.interactions.scrolls) st1
          rw [he] at this
          exact this
        cases ab2 <;> simp [h2, h1]
      · exact h1

theorem handleScroll_url (o : JsOracle) (st : ScrapeState) :
    (handleScroll o st).url = st.url := by
  unfold handleScroll
  rcases hr : runScrollIters o 0 3 st with ⟨st1, ab⟩
  have h1 : st1.url = st.url := by
    have := runScrollIters_url o 0 3 st
    rw [hr] at this
    exact this
  cases ab with
  | some m => simpa using h1
  | none =>
      simp only []
      split
      · rcases he : extraScrolls o.extraFail 0 (3 - st1.interactions.scrolls) st1 with ⟨st2, ab2⟩
        have h2 : st2.url = st1.url := by
          have := extraScrolls_url o.extraFail 0 (3 - st1.interactions.scrolls) st1
          rw [he] at this
          exact this
        cases ab2 <;> simp [h2, h1]
      · exact h1

theorem handleScroll_scrolls (o : JsOracle) (st : ScrapeState)
    (h0 : st.interactions.scrolls = 0) :
    (handleScroll o st).interactions.scrolls ≤ 3 := by
  unfold handleScroll
  rcases hr : runScrollIters o 0 3 st with ⟨st1, ab⟩
  have h1 : st1.interactions.scrolls ≤ 3 := by
    have h2 : st1.interactions.scrolls ≤ st.interactions.scrolls + 3 := by
      have := runScrollIters_scrolls o 0 3 st
      rw [hr] at this
      exact this
    omega
  cases ab with
  | some m => simpa using h1
  | none =>
      simp only []
      split
      · rcases he : extraScrolls o.extraFail 0 (3 - st1.interactions.scrolls) st1 with ⟨st2, ab2⟩
        have h2 : st2.interactions.scrolls ≤ 3 := by
          have h3 : st2.interactions.scrolls ≤
              st1.interactions.scrolls + (3 - st1.interactions.scrolls) := by
            have := extraScrolls_scrolls o.extraFail 0 (3 - st1.interactions.scrolls) st1
            rw [he] at this
            exact this
          omega
        cases ab2 <;> simpa using h2
      · exact h1

theorem handleScroll_pages (o : JsOracle) (st : ScrapeState) :
    ∃ d, (handleScroll o st).interactions.pages = st.interactions.pages ++ d ∧
      d.length ≤ 1 := by
  unfold handleScroll
  rcases hr : runScrollIters o 0 3 st with ⟨st1, ab⟩
  have h1 : ∃ d, st1.interactions.pages = st.interactions.pages ++ d ∧ d.length ≤ 1 := by
    have := runScrollIters_pages o 0 3 st
    rw [hr] at this
    exact this
  rcases h1 with ⟨d, hd, hdl⟩
  cases ab with
  | some m => exact ⟨d, by simpa using hd, hdl⟩
  | none =>
      simp only []
      split
      · rcases he : extraScrolls o.extraFail 0 (3 - st1.interactions.scrolls) st1 with ⟨st2, ab2⟩
        have h2 : st2.interactions.pages = st1.interactions.pages := by
          have := extraScrolls_pages o.extraFail 0 (3 - st1.interactions.scrolls) st1
          rw [he] at this
          exact this
        cases ab2 <;> exact ⟨d, by simp [h2, hd], hdl⟩
      · exact ⟨d, hd, hdl⟩

theorem handleScroll_errors (o : JsOracle) (st : ScrapeState) :
    ∃ d, (handleScroll o st).errors = st.errors ++ d ∧ ∀ r ∈ d, r.phase = "scroll" := by
  unfold handleScroll
  rcases hr : runScrollIters o 0 3 st with ⟨st1, ab⟩
  have h1 : st1.errors = st.errors := by
    have := runScrollIters_errors o 0 3 st
    rw [hr] at this
    exact this
  cases ab with
  | some m =>
      refine ⟨[scrollError m], ?_, ?_⟩
      · simp [h1]
      · intro r hr2
        rw [List.mem_singleton.mp hr2]
        rfl
  | none =>
      simp only []
      split
      · rcases he : extraScrolls o.extraFail 0 (3 - st1.interactions.scrolls) st1 with ⟨st2, ab2⟩
        have h2 : st2.errors = st1.errors := by
          have := extraScrolls_errors o.extraFail 0 (3 - st1.interactions.scrolls) st1
          rw [he] at this
          exact this
        cases ab2 with
        | some m =>
            refine ⟨[scrollError m], ?_, ?_⟩
            · simp [h2, h1]
            · intro r hr2
              rw [List.mem_singleton.mp hr2]
              rfl
        | none => exact ⟨[], by simp [h2, h1], by simp⟩
      · exact ⟨[], by simp [h1], by simp⟩

/-! ## `_js_scrape` lemmas -/

theorem jsScrape_jsCalled (o : JsOracle) (st : ScrapeState) :
    (jsScrape o st).2.jsCalled = true := by
  cases hav : o.available <;> rcases hg : o.gotoFail with _ | m <;>
    rcases hc : o.contentFail with _ | m2 <;>
    simp [jsScrape, hav, hg, hc, handleScroll_jsCalled, handleInteractions_jsCalled]

theorem jsScrape_url (o : JsOracle) (st : ScrapeState) :
    (jsScrape o st).2.url = st.url := by
  cases hav : o.available <;> rcases hg : o.gotoFail with _ | m <;>
    rcases hc : o.contentFail with _ | m2 <;>
    simp [jsScrape, hav, hg, hc, handleScroll_url, handleInteractions_url]

theorem jsScrape_clicks (o : JsOracle) (st : ScrapeState)
    (h0 : st.interactions.clicks = []) :
    ∃ t l, (jsScrape o st).2.interactions.clicks = t ++ l ∧
      t.length ≤ 1 ∧ l.length ≤ 1 ∧
      (∀ c ∈ t, c = tabClickLabel) ∧ (∀ c ∈ l, c ∈ loadMoreSelectors) := by
  cases hav : o.available
  · exact ⟨[], [], by simp [jsScrape, hav, h0], by simp, by simp, by simp, by simp⟩
  · rcases hg : o.gotoFail with _ | m
    · rcases handleInteractions_clicks o
        (addPage (addVisited { st with jsCalled := true } st.url) st.url) with
        ⟨t, l, hcl, ht1, hl1, htm, hlm⟩
      refine ⟨t, l, ?_, ht1, hl1, htm, hlm⟩
      rcases hc : o.contentFail with _ | m2 <;>
        simp only [jsScrape, hav, hg, hc] <;>
        simp [handleScroll_clicks, hcl, h0]
    · exact ⟨[], [], by simp [jsScrape, hav, hg, h0], by simp, by simp, by simp, by simp⟩

theorem jsScrape_scrolls (o : JsOracle) (st : ScrapeState)
    (h0 : st.interactions.scrolls = 0) :
    (jsScrape o st).2.interactions.scrolls ≤ 3 := by
  cases hav : o.available
  · simp [jsScrape, hav, h0]
  · rcases hg : o.gotoFail with _ | m
    · have hs3 : (handleScroll o
          (handleInteractions o
            (addPage (addVisited { st with jsCalled := true } st.url) st.url))).interactions.scrolls ≤ 3 := by
        apply handleScroll_scrolls
        rw [handleInteractions_scrolls]
        simpa using h0
      rcases hc : o.contentFail with _ | m2 <;>
        simp only [jsScrape, hav, hg, hc] <;> simpa using hs3
    · simp [jsScrape, hav, hg, h0]

theorem jsScrape_pages (o : JsOracle) (st : ScrapeState)
    (h0 : st.interactions.pages = []) :
    (jsScrape o st).2.interactions.pages = [] ∨
    (jsScrape o st).2.interactions.pages = [st.url] ∨
    ∃ u, (jsScrape o st).2.interactions.pages = [st.url, u] := by
  cases hav : o.available
  · left; simp [jsScrape, hav, h0]
  · rcases hg : o.gotoFail with _ | m
    · rcases handleScroll_pages o
        (handleInteractions o
          (addPage (addVisited { st with jsCalled := true } st.url) st.url)) with ⟨d, hd, hdl⟩
      have hbase : (handleInteractions o
          (addPage (addVisited { st with jsCalled := true } st.url) st.url)).interactions.pages
          = [st.url] := by
        rw [handleInteractions_pages]
        simp [h0]
      rw [hbase] at hd
      have hshape : (handleScroll o
          (handleInteractions o
            (addPage (addVisited { st with jsCalled := true } st.url) st.url))).interactions.pages
            = [st.url] ∨
          ∃ u, (handleScroll o
            (handleInteractions o
              (addPage (addVisited { st with jsCalled := true } st.url) st.url))).interactions.pages
            = [st.url, u] := by
        rcases d with _ | ⟨u, d'⟩
        · left; simpa using hd
        · right
          refine ⟨u, ?_⟩
          have : d' = [] := by
            cases d' with
            | nil => rfl
            | cons x xs =>
                simp only [List.length_cons] at hdl
                omega
          rw [hd, this]
          rfl
      rcases hc : o.contentFail with _ | m2 <;>
        simp only [jsScrape, hav, hg, hc] <;>
        [skip; skip] <;>
        · rcases hshape with h | ⟨u, h⟩
          · right; left; simpa using h
          · right; right; exact ⟨u, by simpa using h⟩
    · left; simp [jsScrape, hav, hg, h0]

theorem jsScrape_errors (o : JsOracle) (st : ScrapeState) :
    ∃ d, (jsScrape o st).2.errors = st.errors ++ d ∧
      ∀ r ∈ d, r.phase = "render" ∨ r.phase = "interaction" ∨ r.phase = "scroll" := by
  cases hav : o.available
  · refine ⟨[playwrightMissing], by simp [jsScrape, hav, addError], ?_⟩
    intro r hr
    rw [List.mem_singleton.mp hr]
    left
    rfl
  · rcases hg : o.gotoFail with _ | m
    · rcases handleInteractions_errors o
        (addPage (addVisited { st with jsCalled := true } st.url) st.url) with ⟨d1, hd1, hp1⟩
      rcases handleScroll_errors o
        (handleInteractions o
          (addPage (addVisited { st with jsCalled := true } st.url) st.url)) with ⟨d2, hd2, hp2⟩
      refine ⟨d1 ++ d2, ?_, ?_⟩
      · rcases hc : o.contentFail with _ | m2 <;>
          simp only [jsScrape, hav, hg, hc] <;>
          simp [hd2, hd1, List.append_assoc]
      · intro r hr
        rcases List.mem_append.mp hr with h | h
        · right; left; exact hp1 r h
        · right; right; exact hp2 r h
    · exact ⟨[], by simp [jsScrape, hav, hg], by simp⟩

/-! ## `jsBranch` and `scrapeCore` lemmas -/

theorem jsBranch_jsCalled (o : JsOracle) (st : ScrapeState) :
    (jsBranch o st).2.jsCalled = true := by
  unfold jsBranch
  rcases hj : jsScrape o st with ⟨res, st2⟩
  have h2 : st2.jsCalled = true := by
    have := jsScrape_jsCalled o st
    rw [hj] at this
    exact this
  rcases res with m | _ | secs <;> simpa using h2

/-- Every error record the pipeline can append carries one of the four
phases of the spec's taxonomy. -/
def phaseOk (r : ErrorRecord) : Prop :=
  r.phase = "fetch" ∨ r.phase = "render" ∨ r.phase = "interaction" ∨ r.phase = "scroll"

/-- Interaction-log bounds and error-phase discipline established by the
fallback branch, starting from a fresh interaction log. -/
theorem jsBranch_state (o : JsOracle) (st : ScrapeState)
    (hc0 : st.interactions.clicks = []) (hs0 : st.interactions.scrolls = 0)
    (hp0 : st.interactions.pages = []) :
    (∃ t l, (jsBranch o st).2.interactions.clicks = t ++ l ∧
      t.length ≤ 1 ∧ l.length ≤ 1 ∧
      (∀ c ∈ t, c = tabClickLabel) ∧ (∀ c ∈ l, c ∈ loadMoreSelectors)) ∧
    (jsBranch o st).2.interactions.scrolls ≤ 3 ∧
    ((jsBranch o st).2.interactions.pages = [] ∨
     (jsBranch o st).2.interactions.pages = [st.url] ∨
     ∃ u, (jsBranch o st).2.interactions.pages = [st.url, u]) ∧
    (∃ d, (jsBranch o st).2.errors = st.errors ++ d ∧ ∀ r ∈ d, phaseOk r) := by
  unfold jsBranch
  rcases hj : jsScrape o st with ⟨res, st2⟩
  have hcl : ∃ t l, st2.interactions.clicks = t ++ l ∧ t.length ≤ 1 ∧ l.length ≤ 1 ∧
      (∀ c ∈ t, c = tabClickLabel) ∧ (∀ c ∈ l, c ∈ loadMoreSelectors) := by
    have := jsScrape_clicks o st hc0
    rw [hj] at this
    exact this
  have hsc : st2.interactions.scrolls ≤ 3 := by
    have := jsScrape_scrolls o st hs0
    rw [hj] at this
    exact this
  have hpg : st2.interactions.pages = [] ∨ st2.interactions.pages = [st.url] ∨
      ∃ u, st2.interactions.pages = [st.url, u] := by
    have := jsScrape_pages o st hp0
    rw [hj] at this
    exact this
  have herr : ∃ d, st2.errors = st.errors ++ d ∧
      ∀ r ∈ d, r.phase = "render" ∨ r.phase = "interaction" ∨ r.phase = "scroll" := by
    have := jsScrape_errors o st
    rw [hj] at this
    exact this
  rcases herr with ⟨d, hd, hdp⟩
  rcases res with m | _ | secs
  · refine ⟨by simpa using hcl, by simpa using hsc, by simpa using hpg,
      d ++ [{ message := "JS scraping failed: " ++ m, phase := "render" }], ?_, ?_⟩
    · simp [hd]
    · intro r hr
      rcases List.mem_append.mp hr with h | h
      · rcases hdp r h with h2 | h2 | h2
        · right; left; exact h2
        · right; right; left; exact h2
        · right; right; right; exact h2
      · rw [List.mem_singleton.mp h]
        right; left; rfl
  · refine ⟨by simpa using hcl, by simpa using hsc, by simpa using hpg, d, by simpa using hd, ?_⟩
    intro r hr
    rcases hdp r hr with h2 | h2 | h2
    · right; left; exact h2
    · right; right; left; exact h2
    · right; right; right; exact h2
  · refine ⟨by simpa using hcl, by simpa using hsc, by simpa using hpg, d, by simpa using hd, ?_⟩
    intro r hr
    rcases hdp r hr with h2 | h2 | h2
    · right; left; exact h2
    · right; right; left; exact h2
    · right; right; right; exact h2

theorem jsBranch_url (o : JsOracle) (st : ScrapeState) :
    (jsBranch o st).2.url = st.url := by
  unfold jsBranch
  rcases hj : jsScrape o st with ⟨res, st2⟩
  have h2 : st2.url = st.url := by
    have := jsScrape_url o st
    rw [hj] at this
    exact this
  rcases res with m | _ | secs <;> simpa using h2

/-- The conjunction of session-state invariants that survive the whole
orchestration: click/scroll/page bounds of the interaction log, and every
error record carrying one of the four phases. -/
def GoodState (url : String) (st : ScrapeState) : Prop :=
  (∃ t l, st.interactions.clicks = t ++ l ∧ t.length ≤ 1 ∧ l.length ≤ 1 ∧
    (∀ c ∈ t, c = tabClickLabel) ∧ (∀ c ∈ l, c ∈ loadMoreSelectors)) ∧
  st.interactions.scrolls ≤ 3 ∧
  (st.interactions.pages = [] ∨ st.interactions.pages = [url] ∨
    ∃ u, st.interactions.pages = [url, u]) ∧
  (∀ r ∈ st.errors, phaseOk r)

theorem GoodState_addError {url : String} {st : ScrapeState} {r : ErrorRecord}
    (h : GoodState url st) (hr : phaseOk r) : GoodState url (addError st r) := by
  rcases h with ⟨h1, h2, h3, h4⟩
  refine ⟨by simpa using h1, by simpa using h2, by simpa using h3, ?_⟩
  intro r2 hr2
  simp only [addError_errors] at hr2
  rcases List.mem_append.mp hr2 with h | h
  · exact h4 r2 h
  · rw [List.mem_singleton.mp h]
    exact hr

theorem jsScrape_good {url : String} (o : JsOracle) (st : ScrapeState)
    (hu : st.url = url) (hc : st.interactions.clicks = [])
    (hs : st.interactions.scrolls = 0) (hp : st.interactions.pages = [])
    (he : ∀ r ∈ st.errors, phaseOk r) : GoodState url (jsScrape o st).2 := by
  refine ⟨jsScrape_clicks o st hc, jsScrape_scrolls o st hs, ?_, ?_⟩
  · rw [← hu]
    exact jsScrape_pages o st hp
  · rcases jsScrape_errors o st with ⟨d, hd, hdp⟩
    intro r hr
    rw [hd] at hr
    rcases List.mem_append.mp hr with h | h
    · exact he r h
    · rcases hdp r h with h2 | h2 | h2
      · right; left; exact h2
      · right; right; left; exact h2
      · right; right; right; exact h2

theorem jsBranch_good {url : String} (o : JsOracle) (st : ScrapeState)
    (hu : st.url = url) (hc : st.interactions.clicks = [])
    (hs : st.interactions.scrolls = 0) (hp : st.interactions.pages = [])
    (he : ∀ r ∈ st.errors, phaseOk r) : GoodState url (jsBranch o st).2 := by
  have hgood : GoodState url (jsScrape o st).2 := jsScrape_good o st hu hc hs hp he
  unfold jsBranch
  rcases hj : jsScrape o st with ⟨res, st2⟩
  rw [hj] at hgood
  rcases res with m | _ | secs
  · exact GoodState_addError hgood (Or.inr (Or.inl rfl))
  · exact hgood
  · exact hgood

theorem staticPath_good (doc : Node) (o : JsOracle) (url : String) :
    GoodState url (staticPath doc o url).2 := by
  unfold staticPath
  by_cases hsc : contentScore (extractSections doc url) < 500
  · rw [if_pos hsc]
    have hgood : GoodState url
        (jsScrape o { initState url with meta := extractMeta doc (initState url).meta }).2 :=
      jsScrape_good o _ rfl rfl rfl rfl (by intro r hr; simp [initState] at hr)
    rcases hj : jsScrape o { initState url with meta := extractMeta doc (initState url).meta }
      with ⟨res, st2⟩
    rw [hj] at hgood
    rcases res with m | _ | secs
    · exact GoodState_addError hgood (Or.inr (Or.inl rfl))
    · exact hgood
    · show GoodState url
        (if secs.isEmpty = true then (extractSections doc url, st2) else (secs, st2)).2
      split <;> exact hgood
  · rw [if_neg hsc]
    exact ⟨⟨[], [], by simp [initState], by simp, by simp, by simp, by simp⟩,
      by simp [initState], Or.inl (by simp [initState]),
      by intro r hr; simp [initState] at hr⟩

/-- Interaction-log bounds and error-phase discipline of the whole
orchestration: whatever the fetch outcome and the browser behaviour, the
final session state respects the claimed bounds. -/
theorem scrapeCore_good (fr : FetchResult) (o : JsOracle) (url : String) :
    GoodState url (scrapeCore fr o url).2 := by
  rcases fr with m | ⟨body, doc⟩
  · exact jsBranch_good o _ rfl rfl rfl rfl
      (by
        intro r hr
        have hreq : r = { message := "Static fetch failed: " ++ m, phase := "fetch" } := by
          simpa [initState, addError] using hr
        rw [hreq]
        left; rfl)
  · show GoodState url
      (if body ≠ "" then staticPath doc o url else jsBranch o (initState url)).2
    by_cases hb : body ≠ ""
    · rw [if_pos hb]
      exact staticPath_good doc o url
    · rw [if_neg hb]
      exact jsBranch_good o _ rfl rfl rfl rfl (by intro r hr; simp [initState] at hr)

/-! ## Envelope assembly lemmas -/

theorem scrape_eq (fr : FetchResult) (o : JsOracle) (url ts : String) :
    scrape fr o url ts =
      ({ url := url, scrapedAt := ts, meta := (scrapeCore fr o url).2.meta,
         sections := if (scrapeCore fr o url).1.isEmpty then [sentinelSection url]
                     else (scrapeCore fr o url).1,
         interactions := (scrapeCore fr o url).2.interactions,
         errors := (scrapeCore fr o url).2.errors },
       (scrapeCore fr o url).2.jsCalled) := by
  unfold scrape
  rcases h : scrapeCore fr o url with ⟨secs, st⟩
  rfl

/-- Reduction of `scrapeCore` on a failed fetch. -/
theorem scrapeCore_failure_eq (m : String) (o : JsOracle) (url : String) :
    scrapeCore (FetchResult.failure m) o url =
      jsBranch o (addError (initState url)
        { message := "Static fetch failed: " ++ m, phase := "fetch" }) := rfl

/-- Reduction of `scrapeCore` on a fetched body. -/
theorem scrapeCore_success_eq (body : String) (doc : Node) (o : JsOracle) (url : String) :
    scrapeCore (FetchResult.success body doc) o url =
      if body ≠ "" then staticPath doc o url else jsBranch o (initState url) := rfl

/-- The render path reports the sections it extracted from the rendered
document: a `some` result is always an `extractSections` output. -/
theorem jsScrape_sections (o : JsOracle) (st : ScrapeState) (secs : List Section)
    (h : (jsScrape o st).1 = Except.ok (some secs)) :
    ∃ d u2, secs = extractSections d u2 := by
  cases hav : o.available
  · simp [jsScrape, hav] at h
  · rcases hg : o.gotoFail with _ | m
    · rcases hc : o.contentFail with _ | m2
      · simp [jsScrape, hav, hg, hc] at h
        exact ⟨o.renderedDoc, _, h.symm⟩
      · simp [jsScrape, hav, hg, hc] at h
    · simp [jsScrape, hav, hg] at h

theorem jsBranch_sections (o : JsOracle) (st : ScrapeState) :
    (jsBranch o st).1 = [] ∨ ∃ d u2, (jsBranch o st).1 = extractSections d u2 := by
  unfold jsBranch
  rcases hj : jsScrape o st with ⟨res, st2⟩
  rcases res with m | _ | secs
  · left; rfl
  · left; rfl
  · right
    rcases jsScrape_sections o st secs (by rw [hj]) with ⟨d, u2, h⟩
    exact ⟨d, u2, h⟩

theorem staticPath_sections (doc : Node) (o : JsOracle) (url : String) :
    (staticPath doc o url).1 = [] ∨
    ∃ d u2, (staticPath doc o url).1 = extractSections d u2 := by
  unfold staticPath
  by_cases hsc : contentScore (extractSections doc url) < 500
  · rw [if_pos hsc]
    rcases hj : jsScrape o { initState url with meta := extractMeta doc (initState url).meta }
      with ⟨res, st2⟩
    rcases res with m | _ | secs
    · refine Or.inr ⟨doc, url, ?_⟩
      rfl
    · refine Or.inr ⟨doc, url, ?_⟩
      rfl
    · by_cases hsecs : secs.isEmpty = true
      · refine Or.inr ⟨doc, url, ?_⟩
        show (if secs.isEmpty = true then (extractSections doc url, st2)
              else (secs, st2)).1 = extractSections doc url
        rw [if_pos hsecs]
      · rcases jsScrape_sections o _ secs (by rw [hj]) with ⟨d, u2, h⟩
        refine Or.inr ⟨d, u2, ?_⟩
        show (if secs.isEmpty = true then (extractSections doc url, st2)
              else (secs, st2)).1 = extractSections d u2
        rw [if_neg hsecs]
        exact h
  · rw [if_neg hsc]
    refine Or.inr ⟨doc, url, ?_⟩
    rfl

theorem scrapeCore_sections (fr : FetchResult) (o : JsOracle) (url : String) :
    (scrapeCore fr o url).1 = [] ∨
    ∃ d u2, (scrapeCore fr o url).1 = extractSections d u2 := by
  rcases fr with m | ⟨body, doc⟩
  · exact jsBranch_sections o _
  · rw [scrapeCore_success_eq]
    by_cases hb : body ≠ ""
    · rw [if_pos hb]
      exact staticPath_sections doc o url
    · rw [if_neg hb]
      exact jsBranch_sections o _

/-! ## Render-invocation flag lemmas -/

theorem staticPath_flag_low (doc : Node) (o : JsOracle) (url : String)
    (h : contentScore (extractSections doc url) < 500) :
    (staticPath doc o url).2.jsCalled = true := by
  unfold staticPath
  rw [if_pos h]
  have hflag := jsScrape_jsCalled o { initState url with meta := extractMeta doc (initState url).meta }
  rcases hj : jsScrape o { initState url with meta := extractMeta doc (initState url).meta }
    with ⟨res, st2⟩
  rw [hj] at hflag
  rcases res with m | _ | secs
  · simpa using hflag
  · simpa using hflag
  · show (if secs.isEmpty = true then (extractSections doc url, st2) else (secs, st2)).2.jsCalled = true
    split <;> simpa using hflag

theorem staticPath_flag_high (doc : Node) (o : JsOracle) (url : String)
    (h : ¬ contentScore (extractSections doc url) < 500) :
    (staticPath doc o url).2.jsCalled = false := by
  unfold staticPath
  rw [if_neg h]
  rfl

/-! ## Claim theorems -/

theorem scrape_flag (fr : FetchResult) (o : JsOracle) (url ts : String) :
    (scrape fr o url ts).2 = (scrapeCore fr o url).2.jsCalled := by
  rw [scrape_eq]

/-- C1: the render path is invoked exactly when the static fetch raised or
the static extraction's content-volume score is under 500.  The side
condition ties a successful-but-empty response body to its parse: the
parse of an empty body cannot score 500 (BeautifulSoup gives it no
elements), which the model states as a hypothesis because body and parse
are separate oracle inputs here. -/
theorem c1_render_iff (fr : FetchResult) (o : JsOracle) (url ts : String)
    (h : ∀ d, fr = FetchResult.success "" d → contentScore (extractSections d url) < 500) :
    (scrape fr o url ts).2 = true ↔
      ((∃ m, fr = FetchResult.failure m) ∨
       ∃ b d, fr = FetchResult.success b d ∧
         contentScore (extractSections d url) < 500) := by
  rw [scrape_flag]
  rcases fr with m | ⟨body, doc⟩
  · rw [scrapeCore_failure_eq]
    constructor
    · intro _
      exact Or.inl ⟨m, rfl⟩
    · intro _
      exact jsBranch_jsCalled o _
  · rw [scrapeCore_success_eq]
    by_cases hb : body ≠ ""
    · rw [if_pos hb]
      by_cases hsc : contentScore (extractSections doc url) < 500
      · rw [staticPath_flag_low doc o url hsc]
        simp only [true_iff]
        exact Or.inr ⟨body, doc, rfl, hsc⟩
      · rw [staticPath_flag_high doc o url hsc]
        constructor
        · intro hfalse
          cases hfalse
        · rintro (⟨m, hm⟩ | ⟨b, d, hbd, hscd⟩)
          · cases hm
          · injection hbd with h1 h2
            rw [← h2] at hscd
            exact absurd hscd hsc
    · rw [if_neg hb]
      constructor
      · intro _
        push_neg at hb
        exact Or.inr ⟨body, doc, rfl, h doc (by rw [hb])⟩
      · intro _
        exact jsBranch_jsCalled o _

/-- C1 witness: a failed fetch invokes the render path. -/
theorem c1_render_iff_witness :
    (scrape (FetchResult.failure "down") oracleFail "u" "t").2 = true :=
  (c1_render_iff (FetchResult.failure "down") oracleFail "u" "t"
      (by intro d hd; cases hd)).mpr (Or.inl ⟨"down", rfl⟩)

theorem strTake_length_le (s : String) (n : Nat) : (strTake s n).length ≤ n := by
  show (s.data.take n).length ≤ n
  simp [List.length_take]

theorem buildLinks_text_le (url : String) :
    ∀ as, ∀ l ∈ buildLinks url as, l.text.length ≤ 100 := by
  intro as
  induction as with
  | nil =>
      intro l hl
      cases hl
  | cons a rest ih =>
      intro l hl
      rcases hga : getAttr a "href" with _ | href
      · simp only [buildLinks, hga] at hl
        exact ih l hl
      · simp only [buildLinks, hga] at hl
        split_ifs at hl
        · rcases List.mem_cons.mp hl with rfl | hl2
          · exact strTake_length_le _ 100
          · exact ih l hl2
        · exact ih l hl
        · exact ih l hl

/-- C3 counterexample: a class attribute containing all three override
substrings "hero", "faq", "pricing" classifies as "hero" — the `elif`
chain stops at the first match — not as "pricing" as the claim's
last-match-wins reading predicts. -/
theorem c3_cex :
    sectionTypeOf c3elem = "hero" ∧
    (extractSection c3elem "u" 0).type = "hero" ∧
    hasSub (strLower (classString c3elem)) "faq" = true ∧
    hasSub (strLower (classString c3elem)) "pricing" = true ∧
    ("hero" : String) ≠ "pricing" :=
  ⟨by decide, by decide, by decide, by decide, by decide⟩

/-- C3 amended: the class overrides are evaluated hero, then faq, then
pricing with FIRST match wins — faq applies only when hero is absent and
pricing only when both hero and faq are absent; with no match the
tag-based default stands. -/
theorem c3_amended (e : Node) (url : String) (i : Nat) :
    (hasSub (strLower (classString e)) "hero" = true →
      (extractSection e url i).type = "hero") ∧
    (hasSub (strLower (classString e)) "hero" = false →
      hasSub (strLower (classString e)) "faq" = true →
      (extractSection e url i).type = "faq") ∧
    (hasSub (strLower (classString e)) "hero" = false →
      hasSub (strLower (classString e)) "faq" = false →
      hasSub (strLower (classString e)) "pricing" = true →
      (extractSection e url i).type = "pricing") ∧
    (hasSub (strLower (classString e)) "hero" = false →
      hasSub (strLower (classString e)) "faq" = false →
      hasSub (strLower (classString e)) "pricing" = false →
      (extractSection e url i).type = tagType (tagNameOf e)) := by
  have ht : (extractSection e url i).type = sectionTypeOf e := rfl
  refine ⟨?_, ?_, ?_, ?_⟩
  · intro h1
    rw [ht]
    simp [sectionTypeOf, h1]
  · intro h1 h2
    rw [ht]
    simp [sectionTypeOf, h1, h2]
  · intro h1 h2 h3
    rw [ht]
    simp [sectionTypeOf, h1, h2, h3]
  · intro h1 h2 h3
    rw [ht]
    simp [sectionTypeOf, h1, h2, h3]

/-- C3 witness: the amended first-match rule applied to the element whose
class contains all three substrings. -/
theorem c3_amended_witness : (extractSection c3elem "u" 0).type = "hero" :=
  (c3_amended c3elem "u" 0).1 (by decide)

/-- C4 counterexample: in `c4doc` the only landmark (`section
class="cookie-banner"`) is denylisted; the claim predicts the heading tier
fires (emitting the `h1`'s parent div), but the code emits the body
instead — the heading tier is skipped because the landmark selector
returned a non-empty list. -/
theorem c4_cex :
    (selectDoc c4doc landmarkTags).length = 1 ∧
    (emitLandmarks (selectDoc c4doc landmarkTags) 0 "u").isEmpty = true ∧
    ((emitHeadings (headingParents c4doc) 0 "u").map (fun s => s.rawHtml) =
      ["<div><h1>Title</h1>Real</div>"]) ∧
    ((extractSections c4doc "u").map (fun s => s.rawHtml) =
      ["<body><section class=\"cookie-banner\">Accept</section><div><h1>Title</h1>Real</div></body>"]) ∧
    ("<body><section class=\"cookie-banner\">Accept</section><div><h1>Title</h1>Real</div></body>"
      : String) ≠ "<div><h1>Title</h1>Real</div>" :=
  ⟨by decide, by decide, by decide, by decide, by decide⟩

/-- C4 amended: when the landmark selector returns elements and the
landmark loop emits at least one region, those emissions are the result
(landmark tier used); when landmarks exist but every one is denylisted,
control falls through to the body fallback directly (heading tier
skipped); the heading tier is used exactly when the landmark selector
returns NO elements at all, with the body fallback when it too emits
nothing. -/
theorem c4_amended (doc : Node) (url : String) :
    ((selectDoc doc landmarkTags).isEmpty = false →
      (emitLandmarks (selectDoc doc landmarkTags) 0 url).isEmpty = false →
      extractSections doc url = emitLandmarks (selectDoc doc landmarkTags) 0 url) ∧
    ((selectDoc doc landmarkTags).isEmpty = false →
      (emitLandmarks (selectDoc doc landmarkTags) 0 url).isEmpty = true →
      extractSections doc url = bodyFallback doc url) ∧
    ((selectDoc doc landmarkTags).isEmpty = true →
      extractSections doc url =
        (if (emitHeadings (headingParents doc) 0 url).isEmpty then bodyFallback doc url
         else emitHeadings (headingParents doc) 0 url)) := by
  refine ⟨?_, ?_, ?_⟩
  · intro h1 h2
    unfold extractSections
    simp only [h1, Bool.false_eq_true, if_false, h2]
  · intro h1 h2
    unfold extractSections bodyFallback
    simp only [h1, Bool.false_eq_true, if_false, h2, if_true]
  · intro h1
    unfold extractSections bodyFallback
    simp only [h1, if_true]

/-- C4 witness: the amended rule applied to `c5doc`, whose `main` landmark
survives the denylist (landmark tier used), and to `c4doc`, whose only
landmark is denylisted (fall-through to the body, heading tier skipped). -/
theorem c4_amended_witness :
    extractSections c5doc "u" = emitLandmarks (selectDoc c5doc landmarkTags) 0 "u" ∧
    extractSections c4doc "u" = bodyFallback c4doc "u" :=
  ⟨(c4_amended c5doc "u").1 (by decide) (by decide),
   (c4_amended c4doc "u").2.1 (by decide) (by decide)⟩

/-- C5 counterexample: a `main` landmark whose markup contains "overlay"
is kept (the landmark loop checks only cookie/banner/modal/popup), and a
heading parent whose markup contains "popup" is kept (the heading loop
checks only cookie/banner/modal) — contradicting the claim that all five
denylist substrings are dropped in both tiers. -/
theorem c5_cex :
    ((extractSections c5doc "u").map (fun s => s.rawHtml) =
      ["<main class=\"overlay\">hello</main>"]) ∧
    hasSub (strLower "<main class=\"overlay\">hello</main>") "overlay" = true ∧
    ((extractSections c5doc2 "u").map (fun s => s.rawHtml) =
      ["<div class=\"popup\"><h1>Hi there</h1></div>"]) ∧
    hasSub (strLower "<div class=\"popup\"><h1>Hi there</h1></div>") "popup" = true :=
  ⟨by decide, by decide, by decide, by decide⟩

/-- C5 amended: each segmentation loop is exactly the unfiltered loop over
the regions surviving its own denylist — cookie/banner/modal/popup for the
landmark tier and cookie/banner/modal for the heading tier; "overlay" is
checked by neither. -/
theorem c5_amended (rs : List Node) (ctr : Nat) (url : String) :
    emitLandmarks rs ctr url =
      emitPlain (rs.filter (fun r => !(isNoise noiseLandmark r))) ctr url ∧
    emitHeadings rs ctr url =
      emitPlain (rs.filter (fun r => !(isNoise noiseHeading r))) ctr url ∧
    noiseLandmark = ["cookie", "banner", "modal", "popup"] ∧
    noiseHeading = ["cookie", "banner", "modal"] :=
  ⟨emitLandmarks_eq_plain rs ctr url, emitHeadings_eq_plain rs ctr url, rfl, rfl⟩

/-- C6: every envelope carries at least one section, and when both paths
produced nothing exactly the sentinel section (id "empty-0", type
"unknown", label "No content found", empty content, empty rawHtml,
untruncated) is substituted. -/
theorem c6_sentinel (fr : FetchResult) (o : JsOracle) (url ts : String) :
    (scrape fr o url ts).1.sections ≠ [] ∧
    (scrape fr o url ts).1.sections =
      (if (scrapeCore fr o url).1.isEmpty
       then [{ id := "empty-0", type := "unknown", label := "No content found",
               sourceUrl := url,
               content := { headings := [], text := "", links := [], images := [],
                            lists := [], tables := [] },
               rawHtml := "", truncated := false }]
       else (scrapeCore fr o url).1) := by
  rcases hcore : (scrapeCore fr o url).1 with _ | ⟨s, ss⟩
  · constructor
    · rw [scrape_eq]
      simp [hcore]
    · rw [scrape_eq]
      simp [hcore, sentinelSection]
  · constructor
    · rw [scrape_eq]
      simp [hcore]
    · rw [scrape_eq]
      simp [hcore]

/-- C7 counterexample: the sentinel envelope's only section has id
"empty-0" but type "unknown", so its id is not formed from its type and
ordinal — the dense `<type>-<ordinal>` discipline fails on sentinel
envelopes. -/
theorem c7_cex :
    ((scrape (FetchResult.failure "down") oracleFail "u" "t").1.sections.map
      (fun s => (s.id, s.type)) = [("empty-0", "unknown")]) ∧
    idsWellFormed (scrape (FetchResult.failure "down") oracleFail "u" "t").1.sections
      = false :=
  ⟨by decide, by decide⟩

/-- C7 amended: within one envelope the sections either all carry dense
`<type>-<ordinal>` ids (ordinals 0, 1, 2, … in emission order) that are
pairwise distinct, or the envelope is the sentinel one, whose single
section has the fixed id "empty-0" with type "unknown". -/
theorem c7_amended (fr : FetchResult) (o : JsOracle) (url ts : String) :
    (idsWellFormed (scrape fr o url ts).1.sections = true ∧
      ((scrape fr o url ts).1.sections.map (fun s => s.id)).Nodup) ∨
    (scrape fr o url ts).1.sections = [sentinelSection url] := by
  rcases hcore : (scrapeCore fr o url).1 with _ | ⟨s, ss⟩
  · right
    rw [scrape_eq]
    simp [hcore]
  · left
    have hsecs : (scrape fr o url ts).1.sections = (scrapeCore fr o url).1 := by
      rw [scrape_eq]
      simp [hcore]
    rcases scrapeCore_sections fr o url with h | ⟨d, u2, h⟩
    · rw [hcore] at h
      cases h
    · rw [hsecs, h]
      exact ⟨extractSections_idsWellFormed d u2,
        idsFrom_nodup (extractSections_idsWellFormed d u2)⟩

/-- C2: every emitted section obeys the hard caps — at most 10 headings,
50 links (each with text of at most 100 characters), 20 images, 10 lists,
5 tables, 5000 characters of text, a label of at most 100 characters —
`truncated` holds exactly when the serialized region markup exceeds 5000
characters, and `rawHtml` is then the first 5000 characters plus the
"..." marker (at most 5003 characters), the untouched markup otherwise. -/
theorem c2_caps (e : Node) (url : String) (i : Nat) :
    (extractSection e url i).content.headings.length ≤ 10 ∧
    (extractSection e url i).content.links.length ≤ 50 ∧
    (∀ l ∈ (extractSection e url i).content.links, l.text.length ≤ 100) ∧
    (extractSection e url i).content.images.length ≤ 20 ∧
    (extractSection e url i).content.lists.length ≤ 10 ∧
    (extractSection e url i).content.tables.length ≤ 5 ∧
    (extractSection e url i).content.text.length ≤ 5000 ∧
    (extractSection e url i).label.length ≤ 100 ∧
    (extractSection e url i).truncated = decide ((serialize e).length > 5000) ∧
    (extractSection e url i).rawHtml =
      (if (serialize e).length > 5000 then strTake (serialize e) 5000 ++ "..."
       else serialize e) ∧
    (extractSection e url i).rawHtml.length ≤
      (if (extractSection e url i).truncated then 5003 else 5000) := by
  have htr : (extractSection e url i).truncated = decide ((serialize e).length > 5000) := rfl
  have hraw : (extractSection e url i).rawHtml =
      (if (serialize e).length > 5000 then strTake (serialize e) 5000 ++ "..."
       else serialize e) := rfl
  refine ⟨?_, ?_, ?_, ?_, ?_, ?_, ?_, ?_, htr, hraw, ?_⟩
  · show ((collectHeadings e).take 10).length ≤ 10
    simp [List.length_take]
  · show ((buildLinks url (selectDesc e ["a"])).take 50).length ≤ 50
    simp [List.length_take]
  · intro l hl
    have hl2 : l ∈ buildLinks url (selectDesc e ["a"]) :=
      List.take_subset 50 _ hl
    exact buildLinks_text_le url _ l hl2
  · show ((buildImages url (selectDesc e ["img"])).take 20).length ≤ 20
    simp [List.length_take]
  · show ((buildLists (selectDesc e ["ul", "ol"])).take 10).length ≤ 10
    simp [List.length_take]
  · show ((buildTables (selectDesc e ["table"])).take 5).length ≤ 5
    simp [List.length_take]
  · exact strTake_length_le _ 5000
  · exact strTake_length_le _ 100
  · rw [htr, hraw]
    by_cases hlen : (serialize e).length > 5000
    · rw [if_pos hlen]
      have hd : (decide ((serialize e).length > 5000)) = true := by
        simpa using hlen
      rw [hd, if_pos rfl]
      show ((serialize e).data.take 5000 ++ "...".data).length ≤ 5003
      simp [List.length_append, List.length_take]
    · rw [if_neg hlen]
      have hd : (decide ((serialize e).length > 5000)) = false := by
        simpa using hlen
      rw [hd]
      simp only [Bool.false_eq_true, if_false]
      omega

/-- C2 witness: the caps evaluated on a small concrete region. -/
theorem c2_caps_witness :
    (extractSection c3elem "u" 0).content.headings.length ≤ 10 ∧
    (extractSection c3elem "u" 0).content.links.length ≤ 50 ∧
    (∀ l ∈ (extractSection c3elem "u" 0).content.links, l.text.length ≤ 100) ∧
    (extractSection c3elem "u" 0).content.images.length ≤ 20 ∧
    (extractSection c3elem "u" 0).content.lists.length ≤ 10 ∧
    (extractSection c3elem "u" 0).content.tables.length ≤ 5 ∧
    (extractSection c3elem "u" 0).content.text.length ≤ 5000 ∧
    (extractSection c3elem "u" 0).label.length ≤ 100 ∧
    (extractSection c3elem "u" 0).truncated = decide ((serialize c3elem).length > 5000) ∧
    (extractSection c3elem "u" 0).rawHtml =
      (if (serialize c3elem).length > 5000 then strTake (serialize c3elem) 5000 ++ "..."
       else serialize c3elem) ∧
    (extractSection c3elem "u" 0).rawHtml.length ≤
      (if (extractSection c3elem "u" 0).truncated then 5003 else 5000) :=
  c2_caps c3elem "u" 0

/-- C9: across one scrape session the interaction log records at most 2
clicks (at most one tab activation and at most one load-more activation),
at most 3 scrolls, and at most 3 visited pages. -/
theorem c9_interaction_bounds (fr : FetchResult) (o : JsOracle) (url ts : String) :
    (scrape fr o url ts).1.interactions.clicks.length ≤ 2 ∧
    ((scrape fr o url ts).1.interactions.clicks.countP
      (fun c => c == tabClickLabel)) ≤ 1 ∧
    ((scrape fr o url ts).1.interactions.clicks.countP
      (fun c => loadMoreSelectors.contains c)) ≤ 1 ∧
    (scrape fr o url ts).1.interactions.scrolls ≤ 3 ∧
    (scrape fr o url ts).1.interactions.pages.length ≤ 3 := by
  have hi : (scrape fr o url ts).1.interactions = (scrapeCore fr o url).2.interactions := by
    rw [scrape_eq]
  rcases scrapeCore_good fr o url with ⟨⟨t, l, hcl, ht1, hl1, htm, hlm⟩, hsc, hpg, _⟩
  rw [hi, hcl]
  refine ⟨?_, ?_, ?_, hsc, ?_⟩
  · simp only [List.length_append]
    omega
  · rw [List.countP_append]
    have hzero : l.countP (fun c => c == tabClickLabel) = 0 := by
      rw [List.countP_eq_zero]
      intro c hc
      have hmem := hlm c hc
      have hne : c ≠ tabClickLabel := by
        intro heq
        rw [heq] at hmem
        exact absurd hmem (by decide)
      simp [hne]
    rw [hzero]
    have := List.countP_le_length (fun c => c == tabClickLabel) (l := t)
    omega
  · rw [List.countP_append]
    have hzero : t.countP (fun c => loadMoreSelectors.contains c) = 0 := by
      rw [List.countP_eq_zero]
      intro c hc
      rw [htm c hc]
      decide
    rw [hzero]
    have := List.countP_le_length (fun c => loadMoreSelectors.contains c) (l := l)
    omega
  · rcases hpg with h | h | ⟨u, h⟩ <;> rw [h] <;> simp

/-- C9 witness: the bounds evaluated for a session that clicks a tab, a
load-more button, scrolls three times and paginates once. -/
theorem c9_interaction_bounds_witness :
    (scrape (FetchResult.failure "down") oracleBusy "http://x/" "t").1.interactions.clicks.length ≤ 2 ∧
    ((scrape (FetchResult.failure "down") oracleBusy "http://x/" "t").1.interactions.clicks.countP
      (fun c => c == tabClickLabel)) ≤ 1 ∧
    ((scrape (FetchResult.failure "down") oracleBusy "http://x/" "t").1.interactions.clicks.countP
      (fun c => loadMoreSelectors.contains c)) ≤ 1 ∧
    (scrape (FetchResult.failure "down") oracleBusy "http://x/" "t").1.interactions.scrolls ≤ 3 ∧
    (scrape (FetchResult.failure "down") oracleBusy "http://x/" "t").1.interactions.pages.length ≤ 3 :=
  c9_interaction_bounds (FetchResult.failure "down") oracleBusy "http://x/" "t"

/-- C10: the pages list of the interaction log holds at most 2 URLs — the
seed and at most one pagination target — since pagination is attempted
only on the first scroll iteration and stops at the first successful
click. -/
theorem c10_pages_bound (fr : FetchResult) (o : JsOracle) (url ts : String) :
    (scrape fr o url ts).1.interactions.pages.length ≤ 2 ∧
    ((scrape fr o url ts).1.interactions.pages = [] ∨
     (scrape fr o url ts).1.interactions.pages = [url] ∨
     ∃ u, (scrape fr o url ts).1.interactions.pages = [url, u]) := by
  have hi : (scrape fr o url ts).1.interactions = (scrapeCore fr o url).2.interactions := by
    rw [scrape_eq]
  rcases scrapeCore_good fr o url with ⟨_, _, hpg, _⟩
  rw [hi]
  refine ⟨?_, hpg⟩
  rcases hpg with h | h | ⟨u, h⟩ <;> rw [h] <;> simp

/-- C10 witness: a session that paginates once records exactly the seed
and one pagination target. -/
theorem c10_pages_bound_witness :
    (scrape (FetchResult.failure "down") oracleBusy "http://x/" "t").1.interactions.pages.length ≤ 2 :=
  (c10_pages_bound (FetchResult.failure "down") oracleBusy "http://x/" "t").1

/-! ## Failure-conversion lemmas for C8 -/

theorem scrape_errors (fr : FetchResult) (o : JsOracle) (url ts : String) :
    (scrape fr o url ts).1.errors = (scrapeCore fr o url).2.errors := by
  rw [scrape_eq]

theorem scrape_sections_ne (fr : FetchResult) (o : JsOracle) (url ts : String) :
    (scrape fr o url ts).1.sections ≠ [] := by
  rcases hcore : (scrapeCore fr o url).1 with _ | ⟨s, ss⟩ <;>
    rw [scrape_eq] <;> simp [hcore]

theorem jsBranch_errors_mono (o : JsOracle) (st : ScrapeState) :
    ∃ d, (jsBranch o st).2.errors = st.errors ++ d := by
  unfold jsBranch
  rcases hj : jsScrape o st with ⟨res, st2⟩
  rcases jsScrape_errors o st with ⟨d, hd, _⟩
  rw [hj] at hd
  have hd2 : st2.errors = st.errors ++ d := hd
  rcases res with m | _ | secs
  · exact ⟨d ++ [{ message := "JS scraping failed: " ++ m, phase := "render" }],
      by simp [hd2, List.append_assoc]⟩
  · exact ⟨d, hd2⟩
  · exact ⟨d, hd2⟩

theorem jsScrape_goto_eq (o : JsOracle) (st : ScrapeState) (m : String)
    (hav : o.available = true) (hg : o.gotoFail = some m) :
    jsScrape o st = (Except.error m, { st with jsCalled := true }) := by
  simp [jsScrape, hav, hg]

theorem jsBranch_goto_mem (o : JsOracle) (st : ScrapeState) (m : String)
    (hav : o.available = true) (hg : o.gotoFail = some m) :
    { message := "JS scraping failed: " ++ m, phase := "render" } ∈ (jsBranch o st).2.errors := by
  unfold jsBranch
  rw [jsScrape_goto_eq o st m hav hg]
  simp [addError]

theorem staticPath_goto_mem (doc : Node) (o : JsOracle) (url : String) (m : String)
    (hav : o.available = true) (hg : o.gotoFail = some m)
    (hsc : contentScore (extractSections doc url) < 500) :
    { message := "JS scraping failed: " ++ m, phase := "render" } ∈ (staticPath doc o url).2.errors := by
  unfold staticPath
  rw [if_pos hsc, jsScrape_goto_eq o _ m hav hg]
  simp [addError]

theorem jsScrape_unavail_eq (o : JsOracle) (st : ScrapeState)
    (hav : o.available = false) :
    jsScrape o st = (Except.ok none, addError { st with jsCalled := true } playwrightMissing) := by
  simp [jsScrape, hav]

theorem jsBranch_unavail_mem (o : JsOracle) (st : ScrapeState)
    (hav : o.available = false) :
    playwrightMissing ∈ (jsBranch o st).2.errors := by
  unfold jsBranch
  rw [jsScrape_unavail_eq o st hav]
  simp [addError]

theorem staticPath_unavail_mem (doc : Node) (o : JsOracle) (url : String)
    (hav : o.available = false)
    (hsc : contentScore (extractSections doc url) < 500) :
    playwrightMissing ∈ (staticPath doc o url).2.errors := by
  unfold staticPath
  rw [if_pos hsc, jsScrape_unavail_eq o _ hav]
  simp [addError]

theorem jsScrape_inter_mem (o : JsOracle) (st : ScrapeState) (m : String)
    (hav : o.available = true) (hg : o.gotoFail = none)
    (ht : o.tabsQuery = Except.error m) :
    { message := "Interaction handling failed: " ++ m, phase := "interaction" }
      ∈ (jsScrape o st).2.errors := by
  have h1 : handleInteractions o (addPage (addVisited { st with jsCalled := true } st.url) st.url)
      = addError (addPage (addVisited { st with jsCalled := true } st.url) st.url)
          { message := "Interaction handling failed: " ++ m, phase := "interaction" } := by
    simp [handleInteractions, ht]
  rcases handleScroll_errors o
      (handleInteractions o (addPage (addVisited { st with jsCalled := true } st.url) st.url))
    with ⟨d, hd, _⟩
  have h2 : { message := "Interaction handling failed: " ++ m, phase := "interaction" }
      ∈ (handleScroll o
          (handleInteractions o
            (addPage (addVisited { st with jsCalled := true } st.url) st.url))).errors := by
    rw [hd, h1]
    simp [addError]
  rcases hc : o.contentFail with _ | m2 <;>
    simp only [jsScrape, hav, hg, hc] <;>
    simpa using h2

theorem jsBranch_inter_mem (o : JsOracle) (st : ScrapeState) (m : String)
    (hav : o.available = true) (hg : o.gotoFail = none)
    (ht : o.tabsQuery = Except.error m) :
    { message := "Interaction handling failed: " ++ m, phase := "interaction" }
      ∈ (jsBranch o st).2.errors := by
  have hmem := jsScrape_inter_mem o st m hav hg ht
  unfold jsBranch
  rcases hj : jsScrape o st with ⟨res, st2⟩
  rw [hj] at hmem
  rcases res with m2 | _ | secs
  · simp only [addError_errors]
    exact List.mem_append_left _ (by simpa using hmem)
  · simpa using hmem
  · simpa using hmem

theorem staticPath_inter_mem (doc : Node) (o : JsOracle) (url : String) (m : String)
    (hav : o.available = true) (hg : o.gotoFail = none)
    (ht : o.tabsQuery = Except.error m)
    (hsc : contentScore (extractSections doc url) < 500) :
    { message := "Interaction handling failed: " ++ m, phase := "interaction" }
      ∈ (staticPath doc o url).2.errors := by
  have hmem := jsScrape_inter_mem o
    { initState url with meta := extractMeta doc (initState url).meta } m hav hg ht
  unfold staticPath
  rw [if_pos hsc]
  rcases hj : jsScrape o { initState url with meta := extractMeta doc (initState url).meta }
    with ⟨res, st2⟩
  rw [hj] at hmem
  rcases res with m2 | _ | secs
  · simp only [addError_errors]
    exact List.mem_append_left _ (by simpa using hmem)
  · simpa using hmem
  · show _ ∈ (if secs.isEmpty = true then (extractSections doc url, st2)
              else (secs, st2)).2.errors
    split <;> simpa using hmem

theorem jsScrape_scroll_mem (o : JsOracle) (st : ScrapeState) (m : String)
    (hav : o.available = true) (hg : o.gotoFail = none)
    (hs0 : o.scrollIter 0 = IterOutcome.raiseBefore m) :
    scrollError m ∈ (jsScrape o st).2.errors := by
  have hrun : ∀ x : ScrapeState, runScrollIters o 0 3 x = (x, some m) := by
    intro x
    show runScrollIters o 0 (2 + 1) x = (x, some m)
    simp only [runScrollIters, hs0]
  have hhs : ∀ x : ScrapeState, handleScroll o x = addError x (scrollError m) := by
    intro x
    unfold handleScroll
    rw [hrun x]
  have h2 : scrollError m
      ∈ (handleScroll o
          (handleInteractions o
            (addPage (addVisited { st with jsCalled := true } st.url) st.url))).errors := by
    rw [hhs]
    simp [addError]
  rcases hc : o.contentFail with _ | m2 <;>
    simp only [jsScrape, hav, hg, hc] <;>
    simpa using h2

theorem jsBranch_scroll_mem (o : JsOracle) (st : ScrapeState) (m : String)
    (hav : o.available = true) (hg : o.gotoFail = none)
    (hs0 : o.scrollIter 0 = IterOutcome.raiseBefore m) :
    scrollError m ∈ (jsBranch o st).2.errors := by
  have hmem := jsScrape_scroll_mem o st m hav hg hs0
  unfold jsBranch
  rcases hj : jsScrape o st with ⟨res, st2⟩
  rw [hj] at hmem
  rcases res with m2 | _ | secs
  · simp only [addError_errors]
    exact List.mem_append_left _ (by simpa using hmem)
  · simpa using hmem
  · simpa using hmem

theorem staticPath_scroll_mem (doc : Node) (o : JsOracle) (url : String) (m : String)
    (hav : o.available = true) (hg : o.gotoFail = none)
    (hs0 : o.scrollIter 0 = IterOutcome.raiseBefore m)
    (hsc : contentScore (extractSections doc url) < 500) :
    scrollError m ∈ (staticPath doc o url).2.errors := by
  have hmem := jsScrape_scroll_mem o
    { initState url with meta := extractMeta doc (initState url).meta } m hav hg hs0
  unfold staticPath
  rw [if_pos hsc]
  rcases hj : jsScrape o { initState url with meta := extractMeta doc (initState url).meta }
    with ⟨res, st2⟩
  rw [hj] at hmem
  rcases res with m2 | _ | secs
  · simp only [addError_errors]
    exact List.mem_append_left _ (by simpa using hmem)
  · simpa using hmem
  · show _ ∈ (if secs.isEmpty = true then (extractSections doc url, st2)
              else (secs, st2)).2.errors
    split <;> simpa using hmem

/-- When the render path actually ran, a record provable in both fallback
shapes is in the final error list. -/
theorem scrapeCore_js_mem (fr : FetchResult) (o : JsOracle) (url : String)
    (rec : ErrorRecord)
    (hflag : (scrapeCore fr o url).2.jsCalled = true)
    (hJB : ∀ st : ScrapeState, rec ∈ (jsBranch o st).2.errors)
    (hSP : ∀ doc, contentScore (extractSections doc url) < 500 →
      rec ∈ (staticPath doc o url).2.errors) :
    rec ∈ (scrapeCore fr o url).2.errors := by
  rcases fr with m | ⟨body, doc⟩
  · rw [scrapeCore_failure_eq]
    exact hJB _
  · rw [scrapeCore_success_eq] at hflag ⊢
    by_cases hb : body ≠ ""
    · rw [if_pos hb] at hflag ⊢
      by_cases hsc : contentScore (extractSections doc url) < 500
      · exact hSP doc hsc
      · rw [staticPath_flag_high doc o url hsc] at hflag
        cases hflag
    · rw [if_neg hb] at hflag ⊢
      exact hJB _

/-- C8: the top-level scrape never fails outward — it always returns an
envelope with at least one section; every recorded error carries one of
the four phases; a raised static fetch is converted into a phase-"fetch"
record; and when the render path ran, a navigation failure, missing
Playwright, a raised tab query, and a raised first scroll are each
converted into their phase-"render"/"interaction"/"scroll" records. -/
theorem c8_error_records (fr : FetchResult) (o : JsOracle) (url ts : String) :
    (scrape fr o url ts).1.sections ≠ [] ∧
    (∀ r ∈ (scrape fr o url ts).1.errors,
      r.phase = "fetch" ∨ r.phase = "render" ∨ r.phase = "interaction" ∨ r.phase = "scroll") ∧
    (∀ m, fr = FetchResult.failure m →
      { message := "Static fetch failed: " ++ m, phase := "fetch" }
        ∈ (scrape fr o url ts).1.errors) ∧
    (∀ m, (scrape fr o url ts).2 = true → o.available = true → o.gotoFail = some m →
      { message := "JS scraping failed: " ++ m, phase := "render" }
        ∈ (scrape fr o url ts).1.errors) ∧
    ((scrape fr o url ts).2 = true → o.available = false →
      playwrightMissing ∈ (scrape fr o url ts).1.errors) ∧
    (∀ m, (scrape fr o url ts).2 = true → o.available = true → o.gotoFail = none →
      o.tabsQuery = Except.error m →
      { message := "Interaction handling failed: " ++ m, phase := "interaction" }
        ∈ (scrape fr o url ts).1.errors) ∧
    (∀ m, (scrape fr o url ts).2 = true → o.available = true → o.gotoFail = none →
      o.scrollIter 0 = IterOutcome.raiseBefore m →
      scrollError m ∈ (scrape fr o url ts).1.errors) := by
  refine ⟨scrape_sections_ne fr o url ts, ?_, ?_, ?_, ?_, ?_, ?_⟩
  · rw [scrape_errors]
    exact (scrapeCore_good fr o url).2.2.2
  · intro m hm
    subst hm
    rw [scrape_errors, scrapeCore_failure_eq]
    rcases jsBranch_errors_mono o
        (addError (initState url) { message := "Static fetch failed: " ++ m, phase := "fetch" })
      with ⟨d, hd⟩
    rw [hd]
    apply List.mem_append_left
    simp [addError, initState]
  · intro m hflag hav hg
    rw [scrape_errors]
    rw [scrape_flag] at hflag
    exact scrapeCore_js_mem fr o url _ hflag
      (fun st => jsBranch_goto_mem o st m hav hg)
      (fun doc hsc => staticPath_goto_mem doc o url m hav hg hsc)
  · intro hflag hav
    rw [scrape_errors]
    rw [scrape_flag] at hflag
    exact scrapeCore_js_mem fr o url _ hflag
      (fun st => jsBranch_unavail_mem o st hav)
      (fun doc hsc => staticPath_unavail_mem doc o url hav hsc)
  · intro m hflag hav hg ht
    rw [scrape_errors]
    rw [scrape_flag] at hflag
    exact scrapeCore_js_mem fr o url _ hflag
      (fun st => jsBranch_inter_mem o st m hav hg ht)
      (fun doc hsc => staticPath_inter_mem doc o url m hav hg ht hsc)
  · intro m hflag hav hg hs0
    rw [scrape_errors]
    rw [scrape_flag] at hflag
    exact scrapeCore_js_mem fr o url _ hflag
      (fun st => jsBranch_scroll_mem o st m hav hg hs0)
      (fun doc hsc => staticPath_scroll_mem doc o url m hav hg hs0 hsc)

/-- C5 witness: the landmark loop on a singleton region list agrees with
the filtered unfiltered loop. -/
theorem c5_amended_witness :
    emitLandmarks [c5doc] 0 "u" =
      emitPlain ([c5doc].filter (fun r => !(isNoise noiseLandmark r))) 0 "u" :=
  (c5_amended [c5doc] 0 "u").1

/-- C6 witness: the envelope of a fully failed scrape still has a
section. -/
theorem c6_sentinel_witness :
    (scrape (FetchResult.failure "x") oracleFail "u" "t").1.sections ≠ [] :=
  (c6_sentinel (FetchResult.failure "x") oracleFail "u" "t").1

/-- C7 witness: the id discipline instantiated on a concrete scrape. -/
theorem c7_amended_witness :
    (idsWellFormed (scrape (FetchResult.success "<x>" c5doc) oracleFail "u" "t").1.sections
        = true ∧
      ((scrape (FetchResult.success "<x>" c5doc) oracleFail "u" "t").1.sections.map
        (fun s => s.id)).Nodup) ∨
    (scrape (FetchResult.success "<x>" c5doc) oracleFail "u" "t").1.sections
      = [sentinelSection "u"] :=
  c7_amended (FetchResult.success "<x>" c5doc) oracleFail "u" "t"

/-- C8 witness: a failed fetch followed by a failed navigation still
yields an envelope whose error list holds the fetch and render records. -/
theorem c8_error_records_witness :
    (scrape (FetchResult.failure "boom") oracleFail "u" "t").1.sections ≠ [] ∧
    { message := "Static fetch failed: " ++ "boom", phase := "fetch" }
      ∈ (scrape (FetchResult.failure "boom") oracleFail "u" "t").1.errors ∧
    { message := "JS scraping failed: " ++ "net down", phase := "render" }
      ∈ (scrape (FetchResult.failure "boom") oracleFail "u" "t").1.errors :=
  ⟨(c8_error_records (FetchResult.failure "boom") oracleFail "u" "t").1,
   (c8_error_records (FetchResult.failure "boom") oracleFail "u" "t").2.2.1 "boom" rfl,
   (c8_error_records (FetchResult.failure "boom") oracleFail "u" "t").2.2.2.1 "net down"
     (by decide) rfl rfl⟩

end Scraper
